import Mathlib

/-! Transactional write-and-publish pipeline and consumer loop of go-clean-template.

A shallow embedding of `internal/usecase/address_usecase.go`,
`internal/repository/contact_repository.go`, `internal/gateway/messaging/producer.go`
(with the three typed producers), `internal/delivery/messaging/consumer.go`, the
consumer tasks of `cmd/worker/main.go`, and the paging metadata of
`internal/delivery/http/contact_controller.go`.

The relational store is a pair of row lists.  A gorm transaction is a working copy of
the committed store; `Commit` installs the working copy, `Rollback` drops it.  Every
call that leaves the use case (store statement, commit, rollback, publisher, transport)
is appended to a trace, so that orderings and call counts can be stated.  Failures of
the store that do not depend on the data (lost connection, cancelled context) are
chosen by the environment through `Faults`.  Go's `int` is a 64-bit integer that wraps,
and float64 is the rounding of a rational to a 53-bit significand.
-/

namespace GoCleanTemplate

/-! ## Errors -/

/-- Error values seen by the use case: the three fiber errors it returns, gorm's
record-not-found, and any other library error. -/
inductive Error where
  | ErrBadRequest
  | ErrNotFound
  | ErrInternalServerError
  | ErrRecordNotFound
  | other (msg : String)
deriving DecidableEq, Repr

/-! ## Entities, requests, responses, events -/

/-- Row of the contacts table (`entity.Contact`). -/
structure Contact where
  ID : String
  FirstName : String
  LastName : String
  Email : String
  Phone : String
  UserId : String
deriving DecidableEq, Repr

/-- Row of the addresses table (`entity.Address`), with the fields that
`AddressUseCase.Create` fills in. -/
structure Address where
  ID : String
  ContactId : String
  Street : String
  City : String
  Province : String
  PostalCode : String
  Country : String
deriving DecidableEq, Repr

/-- Committed content of the relational store. -/
structure Store where
  contacts : List Contact
  addresses : List Address
deriving DecidableEq, Repr

/-- Row insert into the addresses table. -/
def Store.insert (s : Store) (address : Address) : Store :=
  { s with addresses := s.addresses ++ [address] }

/-- Keyed write: the row having the primary key of `address` is replaced by it. -/
def Store.save (s : Store) (address : Address) : Store :=
  { s with addresses := s.addresses.map (fun a => if a.ID = address.ID then address else a) }

/-- Keyed delete: the row having the primary key of `address` is removed. -/
def Store.delete (s : Store) (address : Address) : Store :=
  { s with addresses := s.addresses.filter (fun a => decide (a.ID ≠ address.ID)) }

/-- Request of `AddressUseCase.Create` (`model.CreateAddressRequest`). -/
structure CreateAddressRequest where
  UserId : String
  ContactId : String
  Street : String
  City : String
  Province : String
  PostalCode : String
  Country : String
deriving DecidableEq, Repr

/-- Request of `AddressUseCase.Update` (`model.UpdateAddressRequest`). -/
structure UpdateAddressRequest where
  UserId : String
  ContactId : String
  ID : String
  Street : String
  City : String
  Province : String
  PostalCode : String
  Country : String
deriving DecidableEq, Repr

/-- Request of `AddressUseCase.Get` (`model.GetAddressRequest`). -/
structure GetAddressRequest where
  UserId : String
  ContactId : String
  ID : String
deriving DecidableEq, Repr

/-- Request of `AddressUseCase.Delete` (`model.DeleteAddressRequest`). -/
structure DeleteAddressRequest where
  UserId : String
  ContactId : String
  ID : String
deriving DecidableEq, Repr

/-- Request of `AddressUseCase.List` (`model.ListAddressRequest`). -/
structure ListAddressRequest where
  UserId : String
  ContactId : String
deriving DecidableEq, Repr

/-- Response payload of the address operations (`model.AddressResponse`). -/
structure AddressResponse where
  ID : String
  Street : String
  City : String
  Province : String
  PostalCode : String
  Country : String
deriving DecidableEq, Repr

/-- Event announced for an address (`model.AddressEvent`). -/
structure AddressEvent where
  ID : String
  ContactId : String
  Street : String
  City : String
  Province : String
  PostalCode : String
  Country : String
deriving DecidableEq, Repr

/-- Capability `model.Event`: an event carries an identifier. -/
class Event (T : Type) where
  GetId : T → String

instance : Event AddressEvent where
  GetId e := e.ID

/-- Modelled from the spec: `converter.AddressToEvent` is not among the sources; the
event is the flat record mirroring the entity's fields. -/
def converter.AddressToEvent (address : Address) : AddressEvent :=
  { ID := address.ID, ContactId := address.ContactId, Street := address.Street,
    City := address.City, Province := address.Province,
    PostalCode := address.PostalCode, Country := address.Country }

/-- Modelled from the spec: `converter.AddressToResponse` is not among the sources; the
response carries the address id and its five address fields. -/
def converter.AddressToResponse (address : Address) : AddressResponse :=
  { ID := address.ID, Street := address.Street, City := address.City,
    Province := address.Province, PostalCode := address.PostalCode,
    Country := address.Country }

/-! ## Publisher -/

/-- Message handed to the transport (`sarama.ProducerMessage`). -/
structure ProducerMessage where
  Topic : String
  Key : String
  Value : List UInt8
deriving DecidableEq, Repr

/-- Generic producer `Producer[T]`: the synchronous transport client and the bound
topic.  `Marshal` is `json.Marshal` at type `T`. -/
structure Producer (T : Type) where
  SendMessage : ProducerMessage → Except Error (Int × Int)
  Topic : String
  Marshal : T → Except Error (List UInt8)

/-- `Producer.Send`: serialise, build the keyed message, one synchronous transport
call.  Returns the error (or none) and the list of messages handed to `SendMessage`. -/
def Producer.Send {T : Type} [Event T] (p : Producer T) (event : T) :
    Option Error × List ProducerMessage :=
  match p.Marshal event with
  | .error err => (some err, [])
  | .ok value =>
    let message : ProducerMessage :=
      { Topic := p.Topic, Key := Event.GetId event, Value := value }
    match p.SendMessage message with
    | .error err => (some err, [message])
    | .ok _ => (none, [message])

/-- `NewAddressProducer`: a producer bound to the topic addresses. -/
def NewAddressProducer (producer : ProducerMessage → Except Error (Int × Int))
    (marshal : AddressEvent → Except Error (List UInt8)) : Producer AddressEvent :=
  { SendMessage := producer, Topic := "addresses", Marshal := marshal }

/-! ## Unit of work -/

/-- Calls that leave the use case, in the order they are made. -/
inductive Action where
  | Begin
  | FindContact (id userId : String)
  | FindAddress (id contactId : String)
  | FindAllAddresses (contactId : String)
  | Insert (a : Address)
  | Save (a : Address)
  | Delete (a : Address)
  | Commit (ok : Bool)
  | Rollback
  | Send (e : AddressEvent)
  | SendMessage (m : ProducerMessage)
deriving DecidableEq, Repr

/-- Store failures chosen by the environment for one unit of work: a flag that is
true makes the corresponding call fail whatever the data. -/
structure Faults where
  FindContact : Bool
  FindAddress : Bool
  FindAll : Bool
  Write : Bool
  Commit : Bool
deriving DecidableEq, Repr

/-- No store failure. -/
def Faults.none : Faults :=
  { FindContact := false, FindAddress := false, FindAll := false, Write := false,
    Commit := false }

/-- State reached through a transaction handle (`*gorm.DB` after `Begin`): the
committed store, the working copy of the open transaction (none once it is committed or
rolled back), the failures the environment will inject, and the trace so far. -/
structure Tx where
  store : Store
  work : Option Store
  faults : Faults
  trace : List Action
deriving DecidableEq, Repr

/-- Append one call to the trace. -/
def Tx.record (tx : Tx) (a : Action) : Tx :=
  { tx with trace := tx.trace ++ [a] }

/-- `c.DB.WithContext(ctx).Begin()`. -/
def Begin (faults : Faults) (db : Store) : Tx :=
  { store := db, work := some db, faults := faults, trace := [Action.Begin] }

/-- `tx.Commit().Error`: installs the working copy as the committed store unless the
environment fails the commit; the transaction is finished either way. -/
def Tx.Commit (tx : Tx) : Option Error × Tx :=
  match tx.work with
  | none => (some (.other "transaction has already been committed or rolled back"),
      tx.record (.Commit false))
  | some w =>
    if tx.faults.Commit then
      (some (.other "commit failed"), { tx.record (.Commit false) with work := none })
    else
      (none, { tx.record (.Commit true) with store := w, work := none })

/-- `tx.Rollback()`: drops the working copy; a no-op on a finished transaction. -/
def Tx.Rollback (tx : Tx) : Tx :=
  { tx.record .Rollback with work := none }

/-- What one use-case call leaves behind: the returned value or error, the committed
store, and the trace of calls. -/
structure Outcome (α : Type) where
  result : Except Error α
  store : Store
  trace : List Action

/-- A `return r` under `defer tx.Rollback()`: the rollback runs, then the call ends. -/
def Tx.returning {α : Type} (tx : Tx) (r : Except Error α) : Outcome α :=
  let tx := tx.Rollback
  { result := r, store := tx.store, trace := tx.trace }

/-- The call `c.AddressProducer.Send(event)` as the use case makes it: the publisher
call and the transport calls it causes are appended to the trace. -/
def Tx.Send (tx : Tx) (producer : Producer AddressEvent) (event : AddressEvent) :
    Option Error × Tx :=
  match producer.Send event with
  | (err, sent) =>
    (err, { tx with trace := tx.trace ++ Action.Send event :: sent.map Action.SendMessage })

/-! ## Repositories -/

/-- `ContactRepository.FindByIdAndUserId`:
`db.Where("id = ? AND user_id = ?", id, userId).Take(contact).Error`. -/
def ContactRepository.FindByIdAndUserId (db : Tx) (id userId : String) :
    Except Error Contact × Tx :=
  let db := db.record (.FindContact id userId)
  if db.faults.FindContact then (.error (.other "query failed"), db)
  else
    match db.work with
    | none => (.error (.other "transaction has already been committed or rolled back"), db)
    | some w =>
      match w.contacts.find? (fun c => decide (c.ID = id) && decide (c.UserId = userId)) with
      | none => (.error .ErrRecordNotFound, db)
      | some contact => (.ok contact, db)

/-- Modelled from the spec: `AddressRepository.FindByIdAndContactId` is not among the
sources; a keyed point-lookup of the address row with that id and contact id, with a
not-found signal on a miss. -/
def AddressRepository.FindByIdAndContactId (db : Tx) (id contactId : String) :
    Except Error Address × Tx :=
  let db := db.record (.FindAddress id contactId)
  if db.faults.FindAddress then (.error (.other "query failed"), db)
  else
    match db.work with
    | none => (.error (.other "transaction has already been committed or rolled back"), db)
    | some w =>
      match w.addresses.find? (fun a => decide (a.ID = id) && decide (a.ContactId = contactId)) with
      | none => (.error .ErrRecordNotFound, db)
      | some address => (.ok address, db)

/-- Modelled from the spec: `AddressRepository.FindAllByContactId` is not among the
sources; the predicate-filtered query for the address rows of one contact. -/
def AddressRepository.FindAllByContactId (db : Tx) (contactId : String) :
    Except Error (List Address) × Tx :=
  let db := db.record (.FindAllAddresses contactId)
  if db.faults.FindAll then (.error (.other "query failed"), db)
  else
    match db.work with
    | none => (.error (.other "transaction has already been committed or rolled back"), db)
    | some w => (.ok (w.addresses.filter (fun a => decide (a.ContactId = contactId))), db)

/-- Modelled from the spec: the generic `Repository.Create` is not among the sources;
an insert of one row inside the unit of work, refused by the store when the primary
key is already present. -/
def AddressRepository.Create (db : Tx) (address : Address) : Option Error × Tx :=
  let db := db.record (.Insert address)
  if db.faults.Write then (some (.other "insert failed"), db)
  else
    match db.work with
    | none => (some (.other "transaction has already been committed or rolled back"), db)
    | some w =>
      if w.addresses.any (fun a => decide (a.ID = address.ID)) then
        (some (.other "duplicate key"), db)
      else
        (none, { db with work := some (w.insert address) })

/-- Modelled from the spec: the generic `Repository.Update` is not among the sources;
a keyed write that replaces the row having the entity's primary key. -/
def AddressRepository.Update (db : Tx) (address : Address) : Option Error × Tx :=
  let db := db.record (.Save address)
  if db.faults.Write then (some (.other "update failed"), db)
  else
    match db.work with
    | none => (some (.other "transaction has already been committed or rolled back"), db)
    | some w =>
      (none, { db with work := some (w.save address) })

/-- Modelled from the spec: the generic `Repository.Delete` is not among the sources;
a keyed delete of the row having the entity's primary key. -/
def AddressRepository.Delete (db : Tx) (address : Address) : Option Error × Tx :=
  let db := db.record (.Delete address)
  if db.faults.Write then (some (.other "delete failed"), db)
  else
    match db.work with
    | none => (some (.other "transaction has already been committed or rolled back"), db)
    | some w =>
      (none, { db with work := some (w.delete address) })

/-! ## Address use case -/

/-- Any request the validator can be asked about. -/
inductive Request where
  | create (r : CreateAddressRequest)
  | update (r : UpdateAddressRequest)
  | get (r : GetAddressRequest)
  | delete (r : DeleteAddressRequest)
  | list (r : ListAddressRequest)
deriving DecidableEq, Repr

/-- The validator collaborator (`*validator.Validate`): `Struct` returns none when the
request shape is accepted. -/
structure Validator where
  Struct : Request → Option Error

/-- What the environment supplies to one call: the value of `uuid.NewString()` and the
store failures. -/
structure Env where
  NewString : String
  faults : Faults

/-- Struct `AddressUseCase`: the validator and the (possibly nil) address producer.  The
store is passed to each operation. -/
structure AddressUseCase where
  Validate : Validator
  AddressProducer : Option (Producer AddressEvent)

/-- `AddressUseCase.Create`. -/
def AddressUseCase.Create (c : AddressUseCase) (env : Env) (db : Store)
    (request : CreateAddressRequest) : Outcome AddressResponse :=
  let tx := Begin env.faults db
  match c.Validate.Struct (.create request) with
  | some _ => tx.returning (.error .ErrBadRequest)
  | none =>
  match ContactRepository.FindByIdAndUserId tx request.ContactId request.UserId with
  | (.error _, tx) => tx.returning (.error .ErrNotFound)
  | (.ok contact, tx) =>
  let address : Address :=
    { ID := env.NewString, ContactId := contact.ID, Street := request.Street,
      City := request.City, Province := request.Province,
      PostalCode := request.PostalCode, Country := request.Country }
  match AddressRepository.Create tx address with
  | (some _, tx) => tx.returning (.error .ErrInternalServerError)
  | (none, tx) =>
  match tx.Commit with
  | (some _, tx) => tx.returning (.error .ErrInternalServerError)
  | (none, tx) =>
  match c.AddressProducer with
  | some producer =>
    let event := converter.AddressToEvent address
    match tx.Send producer event with
    | (some _, tx) => tx.returning (.error .ErrInternalServerError)
    | (none, tx) => tx.returning (.ok (converter.AddressToResponse address))
  | none => tx.returning (.ok (converter.AddressToResponse address))

/-- `AddressUseCase.Update`. -/
def AddressUseCase.Update (c : AddressUseCase) (env : Env) (db : Store)
    (request : UpdateAddressRequest) : Outcome AddressResponse :=
  let tx := Begin env.faults db
  match c.Validate.Struct (.update request) with
  | some _ => tx.returning (.error .ErrBadRequest)
  | none =>
  match ContactRepository.FindByIdAndUserId tx request.ContactId request.UserId with
  | (.error _, tx) => tx.returning (.error .ErrNotFound)
  | (.ok contact, tx) =>
  match AddressRepository.FindByIdAndContactId tx request.ID contact.ID with
  | (.error _, tx) => tx.returning (.error .ErrNotFound)
  | (.ok address, tx) =>
  let address : Address :=
    { address with
      Street := request.Street, City := request.City, Province := request.Province,
      PostalCode := request.PostalCode, Country := request.Country }
  match AddressRepository.Update tx address with
  | (some _, tx) => tx.returning (.error .ErrInternalServerError)
  | (none, tx) =>
  match tx.Commit with
  | (some _, tx) => tx.returning (.error .ErrInternalServerError)
  | (none, tx) =>
  match c.AddressProducer with
  | some producer =>
    let event := converter.AddressToEvent address
    match tx.Send producer event with
    | (some _, tx) => tx.returning (.error .ErrInternalServerError)
    | (none, tx) => tx.returning (.ok (converter.AddressToResponse address))
  | none => tx.returning (.ok (converter.AddressToResponse address))

/-- `AddressUseCase.Get`. -/
def AddressUseCase.Get (_c : AddressUseCase) (env : Env) (db : Store)
    (request : GetAddressRequest) : Outcome AddressResponse :=
  let tx := Begin env.faults db
  match ContactRepository.FindByIdAndUserId tx request.ContactId request.UserId with
  | (.error _, tx) => tx.returning (.error .ErrNotFound)
  | (.ok _, tx) =>
  match AddressRepository.FindByIdAndContactId tx request.ID request.ContactId with
  | (.error _, tx) => tx.returning (.error .ErrNotFound)
  | (.ok address, tx) =>
  match tx.Commit with
  | (some _, tx) => tx.returning (.error .ErrInternalServerError)
  | (none, tx) => tx.returning (.ok (converter.AddressToResponse address))

/-- `AddressUseCase.Delete`; the unit value stands for the nil error. -/
def AddressUseCase.Delete (_c : AddressUseCase) (env : Env) (db : Store)
    (request : DeleteAddressRequest) : Outcome Unit :=
  let tx := Begin env.faults db
  match ContactRepository.FindByIdAndUserId tx request.ContactId request.UserId with
  | (.error _, tx) => tx.returning (.error .ErrNotFound)
  | (.ok _, tx) =>
  match AddressRepository.FindByIdAndContactId tx request.ID request.ContactId with
  | (.error _, tx) => tx.returning (.error .ErrNotFound)
  | (.ok address, tx) =>
  match AddressRepository.Delete tx address with
  | (some _, tx) => tx.returning (.error .ErrInternalServerError)
  | (none, tx) =>
  match tx.Commit with
  | (some _, tx) => tx.returning (.error .ErrInternalServerError)
  | (none, tx) => tx.returning (.ok ())

/-- `AddressUseCase.List`. -/
def AddressUseCase.List (_c : AddressUseCase) (env : Env) (db : Store)
    (request : ListAddressRequest) : Outcome (List AddressResponse) :=
  let tx := Begin env.faults db
  match ContactRepository.FindByIdAndUserId tx request.ContactId request.UserId with
  | (.error _, tx) => tx.returning (.error .ErrNotFound)
  | (.ok contact, tx) =>
  match AddressRepository.FindAllByContactId tx contact.ID with
  | (.error _, tx) => tx.returning (.error .ErrInternalServerError)
  | (.ok addresses, tx) =>
  match tx.Commit with
  | (some _, tx) => tx.returning (.error .ErrInternalServerError)
  | (none, tx) => tx.returning (.ok (addresses.map converter.AddressToResponse))

/-- The address row that `Create` builds for a found contact. -/
def createdAddress (env : Env) (contact : Contact) (request : CreateAddressRequest) : Address :=
  { ID := env.NewString, ContactId := contact.ID, Street := request.Street,
    City := request.City, Province := request.Province,
    PostalCode := request.PostalCode, Country := request.Country }

/-- The address row that `Update` writes for a found address. -/
def updatedAddress (address : Address) (request : UpdateAddressRequest) : Address :=
  { address with
    Street := request.Street, City := request.City, Province := request.Province,
    PostalCode := request.PostalCode, Country := request.Country }

/-! ## Consumer loop -/

/-- Message pulled from a partition claim (`sarama.ConsumerMessage`). -/
structure ConsumerMessage where
  Topic : String
  Partition : Int
  Offset : Int
  Key : List UInt8
  Value : List UInt8
deriving DecidableEq, Repr

/-- `ConsumerHandler`, a `func(message) error`.  The handler may keep state of its own
(a Go closure), so it maps a message and its state to an error or none and a new
state. -/
def ConsumerHandler (σ : Type) : Type := ConsumerMessage → σ → Option Error × σ

/-- Struct `ConsumerGroupHandler`. -/
structure ConsumerGroupHandler (σ : Type) where
  Handler : ConsumerHandler σ

/-- One outcome of the `select` in `ConsumeClaim`: a receive on `claim.Messages()`
(none is the nil message of a closed channel) or the session context being done. -/
inductive Select where
  | message (m : Option ConsumerMessage)
  | done
deriving DecidableEq, Repr

/-- Calls made by `ConsumeClaim`, in order: a handler call with what it returned, and
`session.MarkMessage`. -/
inductive ClaimAction where
  | Handler (m : ConsumerMessage) (err : Option Error)
  | MarkMessage (m : ConsumerMessage)
deriving DecidableEq, Repr

/-- Result of running `ConsumeClaim` against a list of select outcomes: what it
returned (none while it is still blocked in `select`, some none for a nil error) and
the calls it made. -/
structure ClaimRun where
  returned : Option (Option Error)
  log : List ClaimAction
deriving DecidableEq, Repr

/-- `ConsumerGroupHandler.ConsumeClaim`: the `for`/`select` loop, run against the
outcomes the two channels deliver. -/
def ConsumerGroupHandler.ConsumeClaim {σ : Type} (h : ConsumerGroupHandler σ) (s : σ) :
    List Select → ClaimRun
  | [] => { returned := none, log := [] }
  | .message none :: _ => { returned := some none, log := [] }
  | .message (some message) :: rest =>
    match h.Handler message s with
    | (some err, s) =>
      let r := h.ConsumeClaim s rest
      { r with log := .Handler message (some err) :: r.log }
    | (none, s) =>
      let r := h.ConsumeClaim s rest
      { r with log := .Handler message none :: .MarkMessage message :: r.log }
  | .done :: _ => { returned := some none, log := [] }

/-- A claim that delivers the given messages and is then closed. -/
def claimOf (messages : List ConsumerMessage) : List Select :=
  messages.map (fun m => Select.message (some m)) ++ [Select.message none]

/-- Messages received before the claim is closed or the session context is done. -/
def delivered : List Select → List ConsumerMessage
  | .message (some m) :: rest => m :: delivered rest
  | _ => []

/-- Messages passed to the handler, in call order. -/
def handled : List ClaimAction → List ConsumerMessage
  | [] => []
  | .Handler m _ :: rest => m :: handled rest
  | .MarkMessage _ :: rest => handled rest

/-- The handler calls of a log, each with the message passed and what the call
returned, in call order. -/
def handlerCalls : List ClaimAction → List (ConsumerMessage × Option Error)
  | [] => []
  | .Handler m err :: rest => (m, err) :: handlerCalls rest
  | .MarkMessage _ :: rest => handlerCalls rest

/-- What the handler returns when it is applied to the messages one after the other,
each call starting from the state the previous call left, whatever the previous calls
returned. -/
def handlerResults {σ : Type} (h : ConsumerGroupHandler σ) (s : σ) :
    List ConsumerMessage → List (ConsumerMessage × Option Error)
  | [] => []
  | m :: rest => (m, (h.Handler m s).1) :: handlerResults h (h.Handler m s).2 rest

/-- Messages passed to `session.MarkMessage`, in call order. -/
def marked : List ClaimAction → List ConsumerMessage
  | [] => []
  | .Handler _ _ :: rest => marked rest
  | .MarkMessage m :: rest => m :: marked rest

/-- Messages on which the handler returned no error, in call order. -/
def succeeded : List ClaimAction → List ConsumerMessage
  | [] => []
  | .Handler m none :: rest => m :: succeeded rest
  | .Handler _ (some _) :: rest => succeeded rest
  | .MarkMessage _ :: rest => succeeded rest

/-- Logs made of failed handler calls and of successful handler calls each followed at
once by the mark of the same message. -/
inductive Acked : List ClaimAction → Prop where
  | nil : Acked []
  | failed (m : ConsumerMessage) (e : Error) (r : List ClaimAction) :
      Acked r → Acked (.Handler m (some e) :: r)
  | ok (m : ConsumerMessage) (r : List ClaimAction) :
      Acked r → Acked (.Handler m none :: .MarkMessage m :: r)

/-- Messages whose offsets are `n`, `n + 1`, ... in order. -/
def consecutiveFrom : Int → List ConsumerMessage → Bool
  | _, [] => true
  | n, m :: rest => decide (m.Offset = n) && consecutiveFrom (n + 1) rest

/-- Offset watermark of the partition after the marks of a run, starting from the
watermark `init`: sarama keeps the highest offset marked.  The watermark is given as the
offset of the last acknowledged message (sarama itself stores that offset plus one, the
next offset to read). -/
def markedOffset (init : Int) (log : List ClaimAction) : Int :=
  (marked log).foldl (fun w m => max w m.Offset) init

/-- The messages of one partition with offsets `n`, `n + 1`, ..., `n + k - 1`. -/
def messagesFrom (n : Int) : Nat → List ConsumerMessage
  | 0 => []
  | k + 1 =>
    { Topic := "addresses", Partition := 0, Offset := n, Key := [], Value := [] } ::
      messagesFrom (n + 1) k

/-- A handler without state that fails exactly on the message with offset `n`. -/
def failsAt (n : Int) : ConsumerGroupHandler Unit :=
  { Handler := fun m s => (if m.Offset = n then some (.other "handler failed") else none, s) }
/-! ## Resubscribe loop and worker -/

/-- What the environment decides for one pass of the resubscribe loop: the value
returned by `consumerGroup.Consume` and the value of `ctx.Err()` read after it. -/
structure Cycle where
  consumeErr : Option Error
  ctxErr : Option Error
deriving DecidableEq, Repr

/-- Calls made by the resubscribe loop, in order. -/
inductive LoopAction where
  | Consume (topics : List String)
  | Errorw (err : Error)
  | Info
deriving DecidableEq, Repr

/-- Result of running the resubscribe loop against a list of passes: whether the
goroutine has returned, and the calls it made. -/
structure LoopRun where
  returned : Bool
  log : List LoopAction
deriving DecidableEq, Repr

/-- The first goroutine of `ConsumeTopic`: `for` loop that calls
`consumerGroup.Consume(ctx, []string{topic}, consumerHandler)`, logs a returned error, and
returns when `ctx.Err()` is not nil.  When the list of passes is used up the next
`Consume` call has been made and has not returned yet. -/
def ConsumeTopic.resubscribeLoop (topic : String) : List Cycle → LoopRun
  | [] => { returned := false, log := [.Consume [topic]] }
  | c :: rest =>
    let logged : List LoopAction :=
      match c.consumeErr with
      | some err => [.Consume [topic], .Errorw err]
      | none => [.Consume [topic]]
    match c.ctxErr with
    | some _ => { returned := true, log := logged ++ [.Info] }
    | none =>
      let r := ConsumeTopic.resubscribeLoop topic rest
      { r with log := logged ++ r.log }

/-- Number of `Consume` calls in a log of the resubscribe loop. -/
def consumeCalls (log : List LoopAction) : Nat :=
  log.countP (fun a => match a with | .Consume _ => true | _ => false)

/-- `RunAddressConsumer` of the worker, reduced to its resubscribe loop. -/
def RunAddressConsumer (cycles : List Cycle) : LoopRun :=
  ConsumeTopic.resubscribeLoop "addresses" cycles

/-- `RunContactConsumer` of the worker, reduced to its resubscribe loop. -/
def RunContactConsumer (cycles : List Cycle) : LoopRun :=
  ConsumeTopic.resubscribeLoop "contacts" cycles

/-- `RunUserConsumer` of the worker, reduced to its resubscribe loop. -/
def RunUserConsumer (cycles : List Cycle) : LoopRun :=
  ConsumeTopic.resubscribeLoop "users" cycles

/-- Modelled from the spec: `model.UserEvent` is not among the sources; a flat record of
the user's public fields, carrying the identifier. -/
structure UserEvent where
  ID : String
  Name : String
deriving DecidableEq, Repr

/-- Modelled from the spec: `model.ContactEvent` is not among the sources; a flat record
mirroring the contact's fields. -/
structure ContactEvent where
  ID : String
  UserId : String
  FirstName : String
  LastName : String
  Email : String
  Phone : String
deriving DecidableEq, Repr

instance : Event UserEvent where
  GetId e := e.ID

instance : Event ContactEvent where
  GetId e := e.ID

/-- `NewUserProducer`: a producer bound to the topic users. -/
def NewUserProducer (producer : ProducerMessage → Except Error (Int × Int))
    (marshal : UserEvent → Except Error (List UInt8)) : Producer UserEvent :=
  { SendMessage := producer, Topic := "users", Marshal := marshal }

/-- `NewContactProducer`: a producer bound to the topic contacts. -/
def NewContactProducer (producer : ProducerMessage → Except Error (Int × Int))
    (marshal : ContactEvent → Except Error (List UInt8)) : Producer ContactEvent :=
  { SendMessage := producer, Topic := "contacts", Marshal := marshal }

/-! ## Paging metadata -/

/-- Rounding of a rational to the nearest integer, ties to the even one. -/
def roundHalfEven (m : ℚ) : ℤ :=
  if m - ⌊m⌋ < 1 / 2 then ⌊m⌋
  else if 1 / 2 < m - ⌊m⌋ then ⌊m⌋ + 1
  else if ⌊m⌋ % 2 = 0 then ⌊m⌋
  else ⌊m⌋ + 1

/-- The float64 nearest to a positive rational (53-bit significand, round to nearest,
ties to even), for values in float64's normal range. -/
def float64Pos (x : ℚ) : ℚ :=
  (roundHalfEven (x / 2 ^ (Int.log 2 x - 52)) : ℚ) * 2 ^ (Int.log 2 x - 52)

/-- The float64 value of a rational in float64's normal range: the conversion
`float64(n)` of an integer and the rounding of an arithmetic result. -/
def toFloat64 (x : ℚ) : ℚ :=
  if x = 0 then 0 else if 0 < x then float64Pos x else -float64Pos (-x)

/-- The `TotalPage` field computed by `ContactController.List`:
`int64(math.Ceil(float64(total) / float64(request.Size)))`.  The result is none when the
quotient is not a finite number (size 0) or the ceiling is outside int64, where the
conversion to int64 is not defined by the language. -/
def TotalPage (total size : Int) : Option Int :=
  if size = 0 then none
  else
    let pages : Int := ⌈toFloat64 (toFloat64 total / toFloat64 size)⌉
    if -2 ^ 63 ≤ pages ∧ pages < 2 ^ 63 then some pages else none

/-! ## Contact search -/

/-- Request of the contact search (`model.SearchContactRequest`), with the fields that
`ContactController.List` fills in; `Page` and `Size` are Go `int` values. -/
structure SearchContactRequest where
  UserId : String
  Name : String
  Email : String
  Phone : String
  Page : Int
  Size : Int
deriving DecidableEq, Repr

/-- Arithmetic of Go's `int` on a 64-bit platform: the result wraps into
[-2^63, 2^63). -/
def wrapInt64 (x : Int) : Int := (x + 2 ^ 63) % 2 ^ 64 - 2 ^ 63

/-- A `Where` condition that `FilterContact` puts on the contacts query. -/
inductive Cond where
  | userIdEq (userId : String)
  | nameLike (pattern : String)
  | phoneLike (pattern : String)
  | emailLike (pattern : String)
deriving DecidableEq, Repr

/-- Meaning of a condition on a contact row; `ilike value pattern` is the database's
`ILIKE` operator.  The name condition is `first_name ILIKE ? OR last_name ILIKE ?`. -/
def Cond.holds (ilike : String → String → Bool) : Cond → Contact → Bool
  | .userIdEq userId, c => decide (c.UserId = userId)
  | .nameLike pattern, c => ilike c.FirstName pattern || ilike c.LastName pattern
  | .phoneLike pattern, c => ilike c.Phone pattern
  | .emailLike pattern, c => ilike c.Email pattern

/-- `ContactRepository.FilterContact`: the conditions added by the scope, in the order
of the `Where` calls. -/
def ContactRepository.FilterContact (request : SearchContactRequest) : List Cond :=
  let tx := [Cond.userIdEq request.UserId]
  let tx := if request.Name ≠ "" then tx ++ [Cond.nameLike ("%" ++ request.Name ++ "%")] else tx
  let tx :=
    if request.Phone ≠ "" then tx ++ [Cond.phoneLike ("%" ++ request.Phone ++ "%")] else tx
  let tx :=
    if request.Email ≠ "" then tx ++ [Cond.emailLike ("%" ++ request.Email ++ "%")] else tx
  tx

/-- A query with a scope applied (`db.Scopes(...)`): chained `Where` conditions are
joined by AND, so a row is selected when every condition holds. -/
def Scopes (ilike : String → String → Bool) (conds : List Cond) (rows : List Contact) :
    List Contact :=
  rows.filter (fun c => conds.all (fun k => k.holds ilike c))

/-- gorm's `Offset(n)`: an OFFSET clause is issued only for a positive `n`. -/
def Offset {α : Type} (n : Int) (rows : List α) : List α :=
  if 0 < n then rows.drop n.toNat else rows

/-- gorm's `Limit(n)`: a LIMIT clause is issued only for a non-negative `n`. -/
def Limit {α : Type} (n : Int) (rows : List α) : List α :=
  if 0 ≤ n then rows.take n.toNat else rows

/-- Failures of the two queries of `Search`, chosen by the environment. -/
structure SearchFaults where
  Find : Bool
  Count : Bool
deriving DecidableEq, Repr

/-- `ContactRepository.Search` on the rows of the contacts table: the page query with
offset `(request.Page - 1) * request.Size` and limit `request.Size`, then the count
query, both under the scope `FilterContact`. -/
def ContactRepository.Search (ilike : String → String → Bool) (faults : SearchFaults)
    (rows : List Contact) (request : SearchContactRequest) :
    Except Error (List Contact × Int) :=
  if faults.Find then .error (.other "query failed")
  else
    let contacts :=
      Limit request.Size
        (Offset (wrapInt64 (wrapInt64 (request.Page - 1) * request.Size))
          (Scopes ilike (ContactRepository.FilterContact request) rows))
    if faults.Count then .error (.other "count failed")
    else
      let total : Int := (Scopes ilike (ContactRepository.FilterContact request) rows).length
      .ok (contacts, total)

/-- Three contacts of user u1. -/
def threeContacts : List Contact :=
  [{ ID := "c1", FirstName := "Ann", LastName := "Lee", Email := "ann@example.com",
     Phone := "555", UserId := "u1" },
   { ID := "c2", FirstName := "Bob", LastName := "Ray", Email := "bob@example.com",
     Phone := "556", UserId := "u1" },
   { ID := "c3", FirstName := "Cid", LastName := "Poe", Email := "cid@example.com",
     Phone := "557", UserId := "u1" }]

/-- An `ILIKE` that matches every value, used where the pattern does not matter. -/
def ilikeAny : String → String → Bool := fun _ _ => true

/-- A sample `ILIKE` that matches a value exactly when the pattern is that value between
two wildcards. -/
def ilikeWhole : String → String → Bool := fun value pattern => pattern == "%" ++ value ++ "%"

/-- Contacts of two users: Ann Lee and Bob Ray of user u1, Ann Poe of user u2. -/
def mixedContacts : List Contact :=
  [{ ID := "c1", FirstName := "Ann", LastName := "Lee", Email := "ann@example.com",
     Phone := "555", UserId := "u1" },
   { ID := "c2", FirstName := "Bob", LastName := "Ray", Email := "bob@example.com",
     Phone := "556", UserId := "u1" },
   { ID := "c3", FirstName := "Ann", LastName := "Poe", Email := "poe@example.com",
     Phone := "557", UserId := "u2" }]

/-! ## Trace observations and sample data -/

/-- Number of publisher calls in a trace. -/
def sendCount (t : List Action) : Nat :=
  t.countP (fun a => match a with | .Send _ => true | _ => false)

/-- Checks that every publisher call of a trace comes after a successful commit;
`committed` tells whether one has been seen already. -/
def sendsGuarded (committed : Bool) : List Action → Bool
  | [] => true
  | .Send _ :: rest => committed && sendsGuarded committed rest
  | .Commit true :: rest => sendsGuarded true rest
  | _ :: rest => sendsGuarded committed rest

/-- Publisher and transport calls, the calls a disabled event-log integration leaves
out. -/
def Action.isPublish : Action → Bool
  | .Send _ => true
  | .SendMessage _ => true
  | _ => false

/-- Store writes: insert, save and delete of a row. -/
def Action.isWrite : Action → Bool
  | .Insert _ => true
  | .Save _ => true
  | .Delete _ => true
  | _ => false

/-- The transaction calls of a trace: begin, commit and rollback, in order. -/
def txCalls (t : List Action) : List Action :=
  t.filter (fun a =>
    match a with
    | .Begin => true
    | .Commit _ => true
    | .Rollback => true
    | _ => false)

/-- Transaction discipline of a trace: it starts with the one `Begin`, its last call is
the one `Rollback`, and between them there is at most one `Commit`. -/
def oneTransaction (t : List Action) : Prop :=
  t.head? = some .Begin ∧ t.getLast? = some .Rollback ∧
    (txCalls t = [.Begin, .Rollback] ∨ txCalls t = [.Begin, .Commit true, .Rollback] ∨
      txCalls t = [.Begin, .Commit false, .Rollback])

/-- A validator that accepts every request. -/
def acceptAll : Validator := { Struct := fun _ => none }

/-- A validator that rejects every request. -/
def rejectAll : Validator := { Struct := fun _ => some (.other "validation failed") }

/-- A validator that requires a street in create and update requests. -/
def requireStreet : Validator :=
  { Struct := fun r =>
      match r with
      | .create q => if q.Street = "" then some (.other "Street is required") else none
      | .update q => if q.Street = "" then some (.other "Street is required") else none
      | _ => none }

/-- A producer whose transport accepts every message. -/
def okProducer : Producer AddressEvent :=
  NewAddressProducer (fun _ => .ok (0, 0)) (fun _ => .ok [])

/-- A producer whose transport is unreachable. -/
def downProducer : Producer AddressEvent :=
  NewAddressProducer (fun _ => .error (.other "broker unreachable")) (fun _ => .ok [])

/-- Contact c1 of user u1. -/
def sampleContact : Contact :=
  { ID := "c1", FirstName := "Ann", LastName := "Lee", Email := "ann@example.com",
    Phone := "555", UserId := "u1" }

/-- Address a1 of contact c1. -/
def sampleAddress : Address :=
  { ID := "a1", ContactId := "c1", Street := "Old St", City := "Bandung",
    Province := "West Java", PostalCode := "40111", Country := "ID" }

/-- A store with one contact and one address. -/
def sampleStore : Store := { contacts := [sampleContact], addresses := [sampleAddress] }

/-- An environment without store failures whose next uuid is a2. -/
def sampleEnv : Env := { NewString := "a2", faults := Faults.none }

/-- An environment whose commit fails. -/
def commitFailEnv : Env :=
  { NewString := "a2",
    faults := { FindContact := false, FindAddress := false, FindAll := false,
                Write := false, Commit := true } }

/-- Create request of user u1 for contact c1. -/
def sampleCreate : CreateAddressRequest :=
  { UserId := "u1", ContactId := "c1", Street := "Main St", City := "Jakarta",
    Province := "DKI", PostalCode := "10110", Country := "ID" }

/-- Update request of user u1 for address a1 of contact c1. -/
def sampleUpdate : UpdateAddressRequest :=
  { UserId := "u1", ContactId := "c1", ID := "a1", Street := "Main St", City := "Jakarta",
    Province := "DKI", PostalCode := "10110", Country := "ID" }

/-- Update request of user u2 naming contact c1, which belongs to user u1. -/
def foreignUpdate : UpdateAddressRequest :=
  { UserId := "u2", ContactId := "c1", ID := "a1", Street := "Main St", City := "Jakarta",
    Province := "DKI", PostalCode := "10110", Country := "ID" }

/-- Update request of user u2 naming contact c1 of user u1, without a street. -/
def foreignUpdateNoStreet : UpdateAddressRequest :=
  { UserId := "u2", ContactId := "c1", ID := "a1", Street := "", City := "Jakarta",
    Province := "DKI", PostalCode := "10110", Country := "ID" }

/-- Delete request of user u1 for address a1 of contact c1. -/
def sampleDelete : DeleteAddressRequest := { UserId := "u1", ContactId := "c1", ID := "a1" }


/-! ## Path enumeration of the use case operations -/

theorem Producer.Send_sent {T : Type} [Event T] (p : Producer T) (event : T) :
    ((p.Send event).2 = [] ∧ (p.Send event).1 ≠ none) ∨ ∃ m, (p.Send event).2 = [m] := by
  unfold Producer.Send
  cases hm : p.Marshal event with
  | error e => simp
  | ok v =>
    right
    cases hs : p.SendMessage { Topic := p.Topic, Key := Event.GetId event, Value := v } <;>
      simp [hs]

/-- Closed form of `Create`: one outcome per path through the function. -/
theorem Create_eq (c : AddressUseCase) (env : Env) (db : Store)
    (request : CreateAddressRequest) :
    c.Create env db request =
      match c.Validate.Struct (.create request) with
      | some _ => ⟨.error .ErrBadRequest, db, [.Begin, .Rollback]⟩
      | none =>
        if env.faults.FindContact = true then
          ⟨.error .ErrNotFound, db,
            [.Begin, .FindContact request.ContactId request.UserId, .Rollback]⟩
        else
          match db.contacts.find?
            (fun k => decide (k.ID = request.ContactId) && decide (k.UserId = request.UserId)) with
          | none =>
            ⟨.error .ErrNotFound, db,
              [.Begin, .FindContact request.ContactId request.UserId, .Rollback]⟩
          | some contact =>
            if env.faults.Write = true ∨ ∃ a ∈ db.addresses, a.ID = env.NewString then
              ⟨.error .ErrInternalServerError, db,
                [.Begin, .FindContact request.ContactId request.UserId,
                  .Insert (createdAddress env contact request), .Rollback]⟩
            else if env.faults.Commit = true then
              ⟨.error .ErrInternalServerError, db,
                [.Begin, .FindContact request.ContactId request.UserId,
                  .Insert (createdAddress env contact request), .Commit false, .Rollback]⟩
            else
              match c.AddressProducer with
              | none =>
                ⟨.ok (converter.AddressToResponse (createdAddress env contact request)),
                  db.insert (createdAddress env contact request),
                  [.Begin, .FindContact request.ContactId request.UserId,
                    .Insert (createdAddress env contact request), .Commit true, .Rollback]⟩
              | some p =>
                ⟨(match (p.Send (converter.AddressToEvent
                      (createdAddress env contact request))).1 with
                  | some _ => .error .ErrInternalServerError
                  | none =>
                    .ok (converter.AddressToResponse (createdAddress env contact request))),
                  db.insert (createdAddress env contact request),
                  [.Begin, .FindContact request.ContactId request.UserId,
                    .Insert (createdAddress env contact request), .Commit true,
                    .Send (converter.AddressToEvent (createdAddress env contact request))] ++
                  (p.Send (converter.AddressToEvent
                    (createdAddress env contact request))).2.map Action.SendMessage ++
                  [.Rollback]⟩ := by
  unfold AddressUseCase.Create
  cases hv : c.Validate.Struct (.create request) with
  | some e => simp [Begin, Tx.returning, Tx.Rollback, Tx.record]
  | none =>
    cases hfc : env.faults.FindContact with
    | true =>
      simp [Begin, Tx.returning, Tx.Rollback, Tx.record, ContactRepository.FindByIdAndUserId, hfc]
    | false =>
      cases hk : db.contacts.find?
          (fun k => decide (k.ID = request.ContactId) && decide (k.UserId = request.UserId)) with
      | none =>
        simp [Begin, Tx.returning, Tx.Rollback, Tx.record,
          ContactRepository.FindByIdAndUserId, hfc, hk]
      | some contact =>
        cases hw : env.faults.Write with
        | true =>
          simp [Begin, Tx.returning, Tx.Rollback, Tx.record,
            ContactRepository.FindByIdAndUserId, AddressRepository.Create, hfc, hk, hw,
            createdAddress]
        | false =>
          by_cases hd : ∃ a ∈ db.addresses, a.ID = env.NewString
          · simp [Begin, Tx.returning, Tx.Rollback, Tx.record,
              ContactRepository.FindByIdAndUserId, AddressRepository.Create, hfc, hk, hw, hd,
              createdAddress]
          · cases hc : env.faults.Commit with
            | true =>
              simp [Begin, Tx.returning, Tx.Rollback, Tx.record,
                ContactRepository.FindByIdAndUserId, AddressRepository.Create, Tx.Commit,
                hfc, hk, hw, hd, hc, createdAddress]
            | false =>
              cases hp : c.AddressProducer with
              | none =>
                simp [Begin, Tx.returning, Tx.Rollback, Tx.record,
                  ContactRepository.FindByIdAndUserId, AddressRepository.Create, Tx.Commit,
                  hfc, hk, hw, hd, hc, createdAddress]
              | some p =>
                rcases hs : p.Send (converter.AddressToEvent
                  (createdAddress env contact request)) with ⟨err, sent⟩
                cases err <;>
                simp [Begin, Tx.returning, Tx.Rollback, Tx.record,
                  ContactRepository.FindByIdAndUserId, AddressRepository.Create, Tx.Commit,
                  Tx.Send, hfc, hk, hw, hd, hc, createdAddress] <;>
                simp [createdAddress] at hs <;> simp [hs]


/-- Closed form of `Update`: one outcome per path through the function. -/
theorem Update_eq (c : AddressUseCase) (env : Env) (db : Store)
    (request : UpdateAddressRequest) :
    c.Update env db request =
      match c.Validate.Struct (.update request) with
      | some _ => ⟨.error .ErrBadRequest, db, [.Begin, .Rollback]⟩
      | none =>
        if env.faults.FindContact = true then
          ⟨.error .ErrNotFound, db,
            [.Begin, .FindContact request.ContactId request.UserId, .Rollback]⟩
        else
          match db.contacts.find?
            (fun k => decide (k.ID = request.ContactId) && decide (k.UserId = request.UserId)) with
          | none =>
            ⟨.error .ErrNotFound, db,
              [.Begin, .FindContact request.ContactId request.UserId, .Rollback]⟩
          | some contact =>
            if env.faults.FindAddress = true then
              ⟨.error .ErrNotFound, db,
                [.Begin, .FindContact request.ContactId request.UserId,
                  .FindAddress request.ID contact.ID, .Rollback]⟩
            else
              match db.addresses.find?
                (fun a => decide (a.ID = request.ID) && decide (a.ContactId = contact.ID)) with
              | none =>
                ⟨.error .ErrNotFound, db,
                  [.Begin, .FindContact request.ContactId request.UserId,
                    .FindAddress request.ID contact.ID, .Rollback]⟩
              | some address =>
                if env.faults.Write = true then
                  ⟨.error .ErrInternalServerError, db,
                    [.Begin, .FindContact request.ContactId request.UserId,
                      .FindAddress request.ID contact.ID,
                      .Save (updatedAddress address request), .Rollback]⟩
                else if env.faults.Commit = true then
                  ⟨.error .ErrInternalServerError, db,
                    [.Begin, .FindContact request.ContactId request.UserId,
                      .FindAddress request.ID contact.ID,
                      .Save (updatedAddress address request), .Commit false, .Rollback]⟩
                else
                  match c.AddressProducer with
                  | none =>
                    ⟨.ok (converter.AddressToResponse (updatedAddress address request)),
                      db.save (updatedAddress address request),
                      [.Begin, .FindContact request.ContactId request.UserId,
                        .FindAddress request.ID contact.ID,
                        .Save (updatedAddress address request), .Commit true, .Rollback]⟩
                  | some p =>
                    ⟨(match (p.Send (converter.AddressToEvent
                          (updatedAddress address request))).1 with
                      | some _ => .error .ErrInternalServerError
                      | none =>
                        .ok (converter.AddressToResponse (updatedAddress address request))),
                      db.save (updatedAddress address request),
                      [.Begin, .FindContact request.ContactId request.UserId,
                        .FindAddress request.ID contact.ID,
                        .Save (updatedAddress address request), .Commit true,
                        .Send (converter.AddressToEvent (updatedAddress address request))] ++
                      (p.Send (converter.AddressToEvent
                        (updatedAddress address request))).2.map Action.SendMessage ++
                      [.Rollback]⟩ := by
  unfold AddressUseCase.Update
  cases hv : c.Validate.Struct (.update request) with
  | some e => simp [Begin, Tx.returning, Tx.Rollback, Tx.record]
  | none =>
    cases hfc : env.faults.FindContact with
    | true =>
      simp [Begin, Tx.returning, Tx.Rollback, Tx.record, ContactRepository.FindByIdAndUserId, hfc]
    | false =>
      cases hk : db.contacts.find?
          (fun k => decide (k.ID = request.ContactId) && decide (k.UserId = request.UserId)) with
      | none =>
        simp [Begin, Tx.returning, Tx.Rollback, Tx.record,
          ContactRepository.FindByIdAndUserId, hfc, hk]
      | some contact =>
        cases hfa : env.faults.FindAddress with
        | true =>
          simp [Begin, Tx.returning, Tx.Rollback, Tx.record,
            ContactRepository.FindByIdAndUserId, AddressRepository.FindByIdAndContactId,
            hfc, hk, hfa]
        | false =>
          cases ha : db.addresses.find?
              (fun a => decide (a.ID = request.ID) && decide (a.ContactId = contact.ID)) with
          | none =>
            simp [Begin, Tx.returning, Tx.Rollback, Tx.record,
              ContactRepository.FindByIdAndUserId, AddressRepository.FindByIdAndContactId,
              hfc, hk, hfa, ha]
          | some address =>
            cases hw : env.faults.Write with
            | true =>
              simp [Begin, Tx.returning, Tx.Rollback, Tx.record,
                ContactRepository.FindByIdAndUserId, AddressRepository.FindByIdAndContactId,
                AddressRepository.Update, hfc, hk, hfa, ha, hw, updatedAddress]
            | false =>
              cases hc : env.faults.Commit with
              | true =>
                simp [Begin, Tx.returning, Tx.Rollback, Tx.record,
                  ContactRepository.FindByIdAndUserId, AddressRepository.FindByIdAndContactId,
                  AddressRepository.Update, Tx.Commit, hfc, hk, hfa, ha, hw, hc, updatedAddress]
              | false =>
                cases hp : c.AddressProducer with
                | none =>
                  simp [Begin, Tx.returning, Tx.Rollback, Tx.record,
                    ContactRepository.FindByIdAndUserId,
                    AddressRepository.FindByIdAndContactId, AddressRepository.Update,
                    Tx.Commit, hfc, hk, hfa, ha, hw, hc, updatedAddress]
                | some p =>
                  rcases hs : p.Send (converter.AddressToEvent
                    (updatedAddress address request)) with ⟨err, sent⟩
                  cases err <;>
                  simp [Begin, Tx.returning, Tx.Rollback, Tx.record,
                    ContactRepository.FindByIdAndUserId,
                    AddressRepository.FindByIdAndContactId, AddressRepository.Update,
                    Tx.Commit, Tx.Send, hfc, hk, hfa, ha, hw, hc, updatedAddress] <;>
                  simp [updatedAddress] at hs <;> simp [hs]

/-- Closed form of `Get`: one outcome per path through the function. -/
theorem Get_eq (c : AddressUseCase) (env : Env) (db : Store) (request : GetAddressRequest) :
    c.Get env db request =
      if env.faults.FindContact = true then
        ⟨.error .ErrNotFound, db,
          [.Begin, .FindContact request.ContactId request.UserId, .Rollback]⟩
      else
        match db.contacts.find?
          (fun k => decide (k.ID = request.ContactId) && decide (k.UserId = request.UserId)) with
        | none =>
          ⟨.error .ErrNotFound, db,
            [.Begin, .FindContact request.ContactId request.UserId, .Rollback]⟩
        | some _ =>
          if env.faults.FindAddress = true then
            ⟨.error .ErrNotFound, db,
              [.Begin, .FindContact request.ContactId request.UserId,
                .FindAddress request.ID request.ContactId, .Rollback]⟩
          else
            match db.addresses.find?
              (fun a => decide (a.ID = request.ID) && decide (a.ContactId = request.ContactId)) with
            | none =>
              ⟨.error .ErrNotFound, db,
                [.Begin, .FindContact request.ContactId request.UserId,
                  .FindAddress request.ID request.ContactId, .Rollback]⟩
            | some address =>
              if env.faults.Commit = true then
                ⟨.error .ErrInternalServerError, db,
                  [.Begin, .FindContact request.ContactId request.UserId,
                    .FindAddress request.ID request.ContactId, .Commit false, .Rollback]⟩
              else
                ⟨.ok (converter.AddressToResponse address), db,
                  [.Begin, .FindContact request.ContactId request.UserId,
                    .FindAddress request.ID request.ContactId, .Commit true, .Rollback]⟩ := by
  unfold AddressUseCase.Get
  cases hfc : env.faults.FindContact with
  | true =>
    simp [Begin, Tx.returning, Tx.Rollback, Tx.record, ContactRepository.FindByIdAndUserId, hfc]
  | false =>
    cases hk : db.contacts.find?
        (fun k => decide (k.ID = request.ContactId) && decide (k.UserId = request.UserId)) with
    | none =>
      simp [Begin, Tx.returning, Tx.Rollback, Tx.record,
        ContactRepository.FindByIdAndUserId, hfc, hk]
    | some contact =>
      cases hfa : env.faults.FindAddress with
      | true =>
        simp [Begin, Tx.returning, Tx.Rollback, Tx.record,
          ContactRepository.FindByIdAndUserId, AddressRepository.FindByIdAndContactId,
          hfc, hk, hfa]
      | false =>
        cases ha : db.addresses.find?
            (fun a => decide (a.ID = request.ID) && decide (a.ContactId = request.ContactId)) with
        | none =>
          simp [Begin, Tx.returning, Tx.Rollback, Tx.record,
            ContactRepository.FindByIdAndUserId, AddressRepository.FindByIdAndContactId,
            hfc, hk, hfa, ha]
        | some address =>
          cases hc : env.faults.Commit <;>
          simp [Begin, Tx.returning, Tx.Rollback, Tx.record,
            ContactRepository.FindByIdAndUserId, AddressRepository.FindByIdAndContactId,
            Tx.Commit, hfc, hk, hfa, ha, hc]

/-- Closed form of `Delete`: one outcome per path through the function. -/
theorem Delete_eq (c : AddressUseCase) (env : Env) (db : Store)
    (request : DeleteAddressRequest) :
    c.Delete env db request =
      if env.faults.FindContact = true then
        ⟨.error .ErrNotFound, db,
          [.Begin, .FindContact request.ContactId request.UserId, .Rollback]⟩
      else
        match db.contacts.find?
          (fun k => decide (k.ID = request.ContactId) && decide (k.UserId = request.UserId)) with
        | none =>
          ⟨.error .ErrNotFound, db,
            [.Begin, .FindContact request.ContactId request.UserId, .Rollback]⟩
        | some _ =>
          if env.faults.FindAddress = true then
            ⟨.error .ErrNotFound, db,
              [.Begin, .FindContact request.ContactId request.UserId,
                .FindAddress request.ID request.ContactId, .Rollback]⟩
          else
            match db.addresses.find?
              (fun a => decide (a.ID = request.ID) && decide (a.ContactId = request.ContactId)) with
            | none =>
              ⟨.error .ErrNotFound, db,
                [.Begin, .FindContact request.ContactId request.UserId,
                  .FindAddress request.ID request.ContactId, .Rollback]⟩
            | some address =>
              if env.faults.Write = true then
                ⟨.error .ErrInternalServerError, db,
                  [.Begin, .FindContact request.ContactId request.UserId,
                    .FindAddress request.ID request.ContactId, .Delete address, .Rollback]⟩
              else if env.faults.Commit = true then
                ⟨.error .ErrInternalServerError, db,
                  [.Begin, .FindContact request.ContactId request.UserId,
                    .FindAddress request.ID request.ContactId, .Delete address,
                    .Commit false, .Rollback]⟩
              else
                ⟨.ok (),
                  db.delete address,
                  [.Begin, .FindContact request.ContactId request.UserId,
                    .FindAddress request.ID request.ContactId, .Delete address,
                    .Commit true, .Rollback]⟩ := by
  unfold AddressUseCase.Delete
  cases hfc : env.faults.FindContact with
  | true =>
    simp [Begin, Tx.returning, Tx.Rollback, Tx.record, ContactRepository.FindByIdAndUserId, hfc]
  | false =>
    cases hk : db.contacts.find?
        (fun k => decide (k.ID = request.ContactId) && decide (k.UserId = request.UserId)) with
    | none =>
      simp [Begin, Tx.returning, Tx.Rollback, Tx.record,
        ContactRepository.FindByIdAndUserId, hfc, hk]
    | some contact =>
      cases hfa : env.faults.FindAddress with
      | true =>
        simp [Begin, Tx.returning, Tx.Rollback, Tx.record,
          ContactRepository.FindByIdAndUserId, AddressRepository.FindByIdAndContactId,
          hfc, hk, hfa]
      | false =>
        cases ha : db.addresses.find?
            (fun a => decide (a.ID = request.ID) && decide (a.ContactId = request.ContactId)) with
        | none =>
          simp [Begin, Tx.returning, Tx.Rollback, Tx.record,
            ContactRepository.FindByIdAndUserId, AddressRepository.FindByIdAndContactId,
            hfc, hk, hfa, ha]
        | some address =>
          cases hw : env.faults.Write with
          | true =>
            simp [Begin, Tx.returning, Tx.Rollback, Tx.record,
              ContactRepository.FindByIdAndUserId, AddressRepository.FindByIdAndContactId,
              AddressRepository.Delete, hfc, hk, hfa, ha, hw]
          | false =>
            cases hc : env.faults.Commit <;>
            simp [Begin, Tx.returning, Tx.Rollback, Tx.record,
              ContactRepository.FindByIdAndUserId, AddressRepository.FindByIdAndContactId,
              AddressRepository.Delete, Tx.Commit, hfc, hk, hfa, ha, hw, hc]

/-- Closed form of `List`: one outcome per path through the function. -/
theorem List_eq (c : AddressUseCase) (env : Env) (db : Store) (request : ListAddressRequest) :
    c.List env db request =
      if env.faults.FindContact = true then
        ⟨.error .ErrNotFound, db,
          [.Begin, .FindContact request.ContactId request.UserId, .Rollback]⟩
      else
        match db.contacts.find?
          (fun k => decide (k.ID = request.ContactId) && decide (k.UserId = request.UserId)) with
        | none =>
          ⟨.error .ErrNotFound, db,
            [.Begin, .FindContact request.ContactId request.UserId, .Rollback]⟩
        | some contact =>
          if env.faults.FindAll = true then
            ⟨.error .ErrInternalServerError, db,
              [.Begin, .FindContact request.ContactId request.UserId,
                .FindAllAddresses contact.ID, .Rollback]⟩
          else if env.faults.Commit = true then
            ⟨.error .ErrInternalServerError, db,
              [.Begin, .FindContact request.ContactId request.UserId,
                .FindAllAddresses contact.ID, .Commit false, .Rollback]⟩
          else
            ⟨.ok ((db.addresses.filter (fun a => decide (a.ContactId = contact.ID))).map
                converter.AddressToResponse), db,
              [.Begin, .FindContact request.ContactId request.UserId,
                .FindAllAddresses contact.ID, .Commit true, .Rollback]⟩ := by
  unfold AddressUseCase.List
  cases hfc : env.faults.FindContact with
  | true =>
    simp [Begin, Tx.returning, Tx.Rollback, Tx.record, ContactRepository.FindByIdAndUserId, hfc]
  | false =>
    cases hk : db.contacts.find?
        (fun k => decide (k.ID = request.ContactId) && decide (k.UserId = request.UserId)) with
    | none =>
      simp [Begin, Tx.returning, Tx.Rollback, Tx.record,
        ContactRepository.FindByIdAndUserId, hfc, hk]
    | some contact =>
      cases hfa : env.faults.FindAll with
      | true =>
        simp [Begin, Tx.returning, Tx.Rollback, Tx.record,
          ContactRepository.FindByIdAndUserId, AddressRepository.FindAllByContactId,
          hfc, hk, hfa]
      | false =>
        cases hc : env.faults.Commit <;>
        simp [Begin, Tx.returning, Tx.Rollback, Tx.record,
          ContactRepository.FindByIdAndUserId, AddressRepository.FindAllByContactId,
          Tx.Commit, hfc, hk, hfa, hc]


/-! ## Trace lemmas -/

theorem sendsGuarded_sound (t : List Action) :
    ∀ (b : Bool) (pre : List Action) (e : AddressEvent) (post : List Action),
      sendsGuarded b t = true → t = pre ++ Action.Send e :: post →
        b = true ∨ Action.Commit true ∈ pre := by
  induction t with
  | nil => intro b pre e post _ h; simp at h
  | cons a rest ih =>
    intro b pre e post hg h
    cases pre with
    | nil =>
      simp only [List.nil_append, List.cons.injEq] at h
      obtain ⟨rfl, rfl⟩ := h
      simp [sendsGuarded] at hg
      exact Or.inl hg.1
    | cons x pre =>
      simp only [List.cons_append, List.cons.injEq] at h
      obtain ⟨rfl, rfl⟩ := h
      cases a with
      | Commit ok =>
        cases ok with
        | true => right; simp
        | false =>
          simp only [sendsGuarded] at hg
          rcases ih b pre e post hg rfl with h1 | h1
          · exact Or.inl h1
          · right; simp [h1]
      | Send e2 =>
        simp only [sendsGuarded, Bool.and_eq_true] at hg
        exact Or.inl hg.1
      | _ =>
        simp only [sendsGuarded] at hg
        rcases ih b pre e post hg rfl with h1 | h1
        · exact Or.inl h1
        · right; simp [h1]

theorem sendsGuarded_sent (b : Bool) (sent : List ProducerMessage) (rest : List Action) :
    sendsGuarded b (sent.map Action.SendMessage ++ rest) = sendsGuarded b rest := by
  induction sent with
  | nil => rfl
  | cons m sent ih => simp [sendsGuarded, ih]

theorem sendCount_sent (sent : List ProducerMessage) (rest : List Action) :
    sendCount (sent.map Action.SendMessage ++ rest) = sendCount rest := by
  induction sent with
  | nil => rfl
  | cons m sent _ => simp [sendCount]

theorem filter_sent (sent : List ProducerMessage) :
    (sent.map Action.SendMessage).filter (fun a => !a.isPublish) = [] := by
  induction sent with
  | nil => rfl
  | cons m sent ih => simp [Action.isPublish]

theorem find_contact_none (l : List Contact) (id userId : String)
    (h : ∀ k ∈ l, ¬(k.ID = id ∧ k.UserId = userId)) :
    l.find? (fun k => decide (k.ID = id) && decide (k.UserId = userId)) = none := by
  rw [List.find?_eq_none]
  intro k hk
  simpa using h k hk

theorem commit_before_send (t : List Action) (h : sendsGuarded false t = true) :
    ∀ pre e post, t = pre ++ Action.Send e :: post → Action.Commit true ∈ pre := by
  intro pre e post ht
  rcases sendsGuarded_sound t false pre e post h ht with h1 | h1
  · simp at h1
  · exact h1


/-! ## Write-and-publish properties of the address use case -/

theorem Create_sendsGuarded (c : AddressUseCase) (env : Env) (db : Store)
    (request : CreateAddressRequest) :
    sendsGuarded false (c.Create env db request).trace = true := by
  rw [Create_eq]
  repeat' split
  all_goals simp [sendsGuarded, sendsGuarded_sent]

theorem Update_sendsGuarded (c : AddressUseCase) (env : Env) (db : Store)
    (request : UpdateAddressRequest) :
    sendsGuarded false (c.Update env db request).trace = true := by
  rw [Update_eq]
  repeat' split
  all_goals simp [sendsGuarded, sendsGuarded_sent]

/-- C1: in every execution of Create and of Update, each call of Send has a successful
Commit before it in the trace; and when the Commit call fails the operation returns the
internal-server error and Send is not called at all. -/
theorem C1_send_only_after_commit (c : AddressUseCase) (env : Env) (db : Store)
    (cr : CreateAddressRequest) (ur : UpdateAddressRequest) :
    ((∀ pre e post, (c.Create env db cr).trace = pre ++ Action.Send e :: post →
        Action.Commit true ∈ pre) ∧
      (Action.Commit false ∈ (c.Create env db cr).trace →
        (c.Create env db cr).result = .error .ErrInternalServerError ∧
        ∀ e, Action.Send e ∉ (c.Create env db cr).trace)) ∧
    ((∀ pre e post, (c.Update env db ur).trace = pre ++ Action.Send e :: post →
        Action.Commit true ∈ pre) ∧
      (Action.Commit false ∈ (c.Update env db ur).trace →
        (c.Update env db ur).result = .error .ErrInternalServerError ∧
        ∀ e, Action.Send e ∉ (c.Update env db ur).trace)) := by
  refine ⟨⟨commit_before_send _ (Create_sendsGuarded c env db cr), ?_⟩,
    ⟨commit_before_send _ (Update_sendsGuarded c env db ur), ?_⟩⟩
  · rw [Create_eq]
    repeat' split
    all_goals simp
  · rw [Update_eq]
    repeat' split
    all_goals simp

/-- C1 at a commit that fails: Create on the sample store returns the internal-server
error and its trace holds no Send. -/
theorem C1_send_only_after_commit_witness :
    Action.Commit false ∈ (AddressUseCase.Create ⟨acceptAll, some okProducer⟩ commitFailEnv
        sampleStore sampleCreate).trace ∧
      (AddressUseCase.Create ⟨acceptAll, some okProducer⟩ commitFailEnv sampleStore
        sampleCreate).result = .error .ErrInternalServerError ∧
      ∀ e, Action.Send e ∉ (AddressUseCase.Create ⟨acceptAll, some okProducer⟩ commitFailEnv
        sampleStore sampleCreate).trace :=
  ⟨by decide,
    (C1_send_only_after_commit ⟨acceptAll, some okProducer⟩ commitFailEnv sampleStore
      sampleCreate sampleUpdate).1.2 (by decide)⟩


/-- C2: with a publisher configured, when Create (Update) has committed and its Send
returns an error, the operation returns the internal-server error and no response,
while the committed store holds the inserted (rewritten) address row; and there is an
execution of a mutating operation that returns an error and leaves a store different
from the one it started with. -/
theorem C2_send_failure_after_commit (c : AddressUseCase) (env : Env) (db : Store)
    (cr : CreateAddressRequest) (ur : UpdateAddressRequest) (p : Producer AddressEvent)
    (hp : c.AddressProducer = some p) :
    (∀ e, Action.Commit true ∈ (c.Create env db cr).trace →
      Action.Send e ∈ (c.Create env db cr).trace → (p.Send e).1 ≠ none →
        (c.Create env db cr).result = .error .ErrInternalServerError ∧
        ∃ a : Address, e = converter.AddressToEvent a ∧ a.ID = env.NewString ∧
          a.ContactId = cr.ContactId ∧ a.Street = cr.Street ∧ a.City = cr.City ∧
          a.Province = cr.Province ∧ a.PostalCode = cr.PostalCode ∧ a.Country = cr.Country ∧
          (c.Create env db cr).store = db.insert a ∧
          a ∈ (c.Create env db cr).store.addresses) ∧
    (∀ e, Action.Commit true ∈ (c.Update env db ur).trace →
      Action.Send e ∈ (c.Update env db ur).trace → (p.Send e).1 ≠ none →
        (c.Update env db ur).result = .error .ErrInternalServerError ∧
        ∃ old ∈ db.addresses, old.ID = ur.ID ∧ old.ContactId = ur.ContactId ∧
          e = converter.AddressToEvent (updatedAddress old ur) ∧
          (c.Update env db ur).store = db.save (updatedAddress old ur) ∧
          updatedAddress old ur ∈ (c.Update env db ur).store.addresses) ∧
    (∃ (c0 : AddressUseCase) (env0 : Env) (db0 : Store) (cr0 : CreateAddressRequest),
      (c0.Create env0 db0 cr0).result = .error .ErrInternalServerError ∧
      (c0.Create env0 db0 cr0).store ≠ db0) := by
  refine ⟨?_, ?_, ⟨⟨acceptAll, some downProducer⟩, sampleEnv, sampleStore, sampleCreate,
    by rfl, by decide⟩⟩
  · intro e
    rw [Create_eq]
    simp only [hp]
    repeat' split
    all_goals simp_all
    intro _
    have hk := List.find?_some ‹List.find? _ db.contacts = some _›
    simp only [Bool.and_eq_true, decide_eq_true_eq] at hk
    exact ⟨_, rfl, rfl, hk.1, rfl, rfl, rfl, rfl, rfl, rfl, by simp [Store.insert]⟩
  · intro e
    rw [Update_eq]
    simp only [hp]
    repeat' split
    all_goals simp_all
    intro _
    have hk := List.find?_some ‹List.find? _ db.contacts = some _›
    have ha := List.find?_some ‹List.find? _ db.addresses = some _›
    have hm := List.mem_of_find?_eq_some ‹List.find? _ db.addresses = some _›
    simp only [Bool.and_eq_true, decide_eq_true_eq] at hk ha
    refine ⟨_, hm, ha.1, ha.2.trans hk.1, rfl, rfl, ?_⟩
    simp only [Store.save, List.mem_map]
    exact ⟨_, hm, by simp [updatedAddress]⟩

/-- C2 at a transport that is down: the sample Create commits, its Send fails, the call
returns the internal-server error and the store holds the new row. -/
theorem C2_send_failure_after_commit_witness :
    (AddressUseCase.Create ⟨acceptAll, some downProducer⟩ sampleEnv sampleStore
        sampleCreate).result = .error .ErrInternalServerError ∧
      ∃ a : Address, a.ID = "a2" ∧ a.Street = "Main St" ∧
        a ∈ (AddressUseCase.Create ⟨acceptAll, some downProducer⟩ sampleEnv sampleStore
          sampleCreate).store.addresses := by
  obtain ⟨h1, a, _, h2, _, h3, _, _, _, _, _, h4⟩ :=
    (C2_send_failure_after_commit ⟨acceptAll, some downProducer⟩ sampleEnv sampleStore
      sampleCreate sampleUpdate downProducer rfl).1
      (converter.AddressToEvent (createdAddress sampleEnv sampleContact sampleCreate))
      (by decide) (by decide) (by decide)
  exact ⟨h1, a, h2, h3, h4⟩

/-- C3: for Create, Update and Delete on any store, when the operation returns an error
and no Commit has succeeded (the error comes from validation, a lookup, the write or the
commit), the committed store is the one before the call and Send has not been called. -/
theorem C3_error_before_commit_leaves_store (c : AddressUseCase) (env : Env) (db : Store)
    (cr : CreateAddressRequest) (ur : UpdateAddressRequest) (dr : DeleteAddressRequest) :
    ((∃ err, (c.Create env db cr).result = .error err) →
      Action.Commit true ∉ (c.Create env db cr).trace →
        (c.Create env db cr).store = db ∧ ∀ e, Action.Send e ∉ (c.Create env db cr).trace) ∧
    ((∃ err, (c.Update env db ur).result = .error err) →
      Action.Commit true ∉ (c.Update env db ur).trace →
        (c.Update env db ur).store = db ∧ ∀ e, Action.Send e ∉ (c.Update env db ur).trace) ∧
    ((∃ err, (c.Delete env db dr).result = .error err) →
      Action.Commit true ∉ (c.Delete env db dr).trace →
        (c.Delete env db dr).store = db ∧ ∀ e, Action.Send e ∉ (c.Delete env db dr).trace) := by
  refine ⟨?_, ?_, ?_⟩
  · rw [Create_eq]
    repeat' split
    all_goals simp
  · rw [Update_eq]
    repeat' split
    all_goals simp
  · rw [Delete_eq]
    repeat' split
    all_goals simp

/-- C3 at a commit that fails: the sample Update returns an error, the store is
unchanged and Send is not called. -/
theorem C3_error_before_commit_leaves_store_witness :
    (AddressUseCase.Update ⟨acceptAll, some okProducer⟩ commitFailEnv sampleStore
        sampleUpdate).store = sampleStore ∧
      ∀ e, Action.Send e ∉ (AddressUseCase.Update ⟨acceptAll, some okProducer⟩ commitFailEnv
        sampleStore sampleUpdate).trace :=
  (C3_error_before_commit_leaves_store ⟨acceptAll, some okProducer⟩ commitFailEnv sampleStore
    sampleCreate sampleUpdate sampleDelete).2.1 ⟨.ErrInternalServerError, rfl⟩ (by decide)

/-- C4: Create and Update with the publisher absent make no publisher and no transport
call and return a response whenever their Commit succeeds; and when the Send of a
configured publisher succeeds, the run without publisher returns the same response or
error, leaves the same store, and makes the same calls apart from the publisher and
transport calls. -/
theorem C4_absent_publisher_is_silent (v : Validator) (p : Producer AddressEvent)
    (env : Env) (db : Store) (cr : CreateAddressRequest) (ur : UpdateAddressRequest) :
    ((∀ a ∈ (AddressUseCase.Create ⟨v, none⟩ env db cr).trace, a.isPublish = false) ∧
      (Action.Commit true ∈ (AddressUseCase.Create ⟨v, none⟩ env db cr).trace →
        ∃ r, (AddressUseCase.Create ⟨v, none⟩ env db cr).result = .ok r) ∧
      ((∀ e, Action.Send e ∈ (AddressUseCase.Create ⟨v, some p⟩ env db cr).trace →
          (p.Send e).1 = none) →
        (AddressUseCase.Create ⟨v, none⟩ env db cr).result =
          (AddressUseCase.Create ⟨v, some p⟩ env db cr).result ∧
        (AddressUseCase.Create ⟨v, none⟩ env db cr).store =
          (AddressUseCase.Create ⟨v, some p⟩ env db cr).store ∧
        (AddressUseCase.Create ⟨v, none⟩ env db cr).trace =
          (AddressUseCase.Create ⟨v, some p⟩ env db cr).trace.filter
            (fun a => !a.isPublish))) ∧
    ((∀ a ∈ (AddressUseCase.Update ⟨v, none⟩ env db ur).trace, a.isPublish = false) ∧
      (Action.Commit true ∈ (AddressUseCase.Update ⟨v, none⟩ env db ur).trace →
        ∃ r, (AddressUseCase.Update ⟨v, none⟩ env db ur).result = .ok r) ∧
      ((∀ e, Action.Send e ∈ (AddressUseCase.Update ⟨v, some p⟩ env db ur).trace →
          (p.Send e).1 = none) →
        (AddressUseCase.Update ⟨v, none⟩ env db ur).result =
          (AddressUseCase.Update ⟨v, some p⟩ env db ur).result ∧
        (AddressUseCase.Update ⟨v, none⟩ env db ur).store =
          (AddressUseCase.Update ⟨v, some p⟩ env db ur).store ∧
        (AddressUseCase.Update ⟨v, none⟩ env db ur).trace =
          (AddressUseCase.Update ⟨v, some p⟩ env db ur).trace.filter
            (fun a => !a.isPublish))) := by
  refine ⟨⟨?_, ?_, ?_⟩, ⟨?_, ?_, ?_⟩⟩
  · rw [Create_eq]
    repeat' split
    all_goals simp_all [Action.isPublish]
  · rw [Create_eq]
    repeat' split
    all_goals simp_all
  · rw [Create_eq, Create_eq]
    repeat' split
    all_goals simp_all [Action.isPublish, List.filter_cons, filter_sent]
  · rw [Update_eq]
    repeat' split
    all_goals simp_all [Action.isPublish]
  · rw [Update_eq]
    repeat' split
    all_goals simp_all
  · rw [Update_eq, Update_eq]
    repeat' split
    all_goals simp_all [Action.isPublish, List.filter_cons, filter_sent]

/-- C4 on the sample store: Create without publisher returns what Create returns with a
publisher whose transport accepts the message. -/
theorem C4_absent_publisher_is_silent_witness :
    (AddressUseCase.Create ⟨acceptAll, none⟩ sampleEnv sampleStore sampleCreate).result =
        (AddressUseCase.Create ⟨acceptAll, some okProducer⟩ sampleEnv sampleStore
          sampleCreate).result ∧
      (AddressUseCase.Create ⟨acceptAll, none⟩ sampleEnv sampleStore sampleCreate).result =
        .ok ⟨"a2", "Main St", "Jakarta", "DKI", "10110", "ID"⟩ :=
  ⟨((C4_absent_publisher_is_silent acceptAll okProducer sampleEnv sampleStore sampleCreate
      sampleUpdate).1.2.2 (by intro e _; rfl)).1, by rfl⟩

/-- C5, as stated, fails: on the sample store the update request of user u2 for contact
c1 (a contact of user u1) matches no contact row, yet with a validator that rejects it
Update returns the bad-request error, not the not-found error. -/
theorem C5_counterexample :
    (∀ k ∈ sampleStore.contacts,
        ¬(k.ID = foreignUpdateNoStreet.ContactId ∧ k.UserId = foreignUpdateNoStreet.UserId)) ∧
      (AddressUseCase.Update ⟨requireStreet, some okProducer⟩ sampleEnv sampleStore
        foreignUpdateNoStreet).result = .error .ErrBadRequest ∧
      (AddressUseCase.Update ⟨requireStreet, some okProducer⟩ sampleEnv sampleStore
        foreignUpdateNoStreet).result ≠ .error .ErrNotFound := by
  refine ⟨by decide, by rfl, ?_⟩
  have h : (AddressUseCase.Update ⟨requireStreet, some okProducer⟩ sampleEnv sampleStore
      foreignUpdateNoStreet).result = .error .ErrBadRequest := by rfl
  rw [h]
  simp

/-- C5, amended: when the (ContactId, UserId) pair of the request matches no contact
row, Get, Delete and List return the not-found error, and Update and Create return the
not-found error when the validator accepts the request and the bad-request error when it
rejects it; in all five the store is unchanged and Send is not called. -/
theorem C5_no_owned_contact (c : AddressUseCase) (env : Env) (db : Store)
    (cr : CreateAddressRequest) (ur : UpdateAddressRequest) (gr : GetAddressRequest)
    (dr : DeleteAddressRequest) (lr : ListAddressRequest) :
    ((∀ k ∈ db.contacts, ¬(k.ID = ur.ContactId ∧ k.UserId = ur.UserId)) →
      (c.Validate.Struct (.update ur) = none →
        (c.Update env db ur).result = .error .ErrNotFound) ∧
      (c.Validate.Struct (.update ur) ≠ none →
        (c.Update env db ur).result = .error .ErrBadRequest) ∧
      (c.Update env db ur).store = db ∧ ∀ e, Action.Send e ∉ (c.Update env db ur).trace) ∧
    ((∀ k ∈ db.contacts, ¬(k.ID = cr.ContactId ∧ k.UserId = cr.UserId)) →
      (c.Validate.Struct (.create cr) = none →
        (c.Create env db cr).result = .error .ErrNotFound) ∧
      (c.Validate.Struct (.create cr) ≠ none →
        (c.Create env db cr).result = .error .ErrBadRequest) ∧
      (c.Create env db cr).store = db ∧ ∀ e, Action.Send e ∉ (c.Create env db cr).trace) ∧
    ((∀ k ∈ db.contacts, ¬(k.ID = gr.ContactId ∧ k.UserId = gr.UserId)) →
      (c.Get env db gr).result = .error .ErrNotFound ∧
      (c.Get env db gr).store = db ∧ ∀ e, Action.Send e ∉ (c.Get env db gr).trace) ∧
    ((∀ k ∈ db.contacts, ¬(k.ID = dr.ContactId ∧ k.UserId = dr.UserId)) →
      (c.Delete env db dr).result = .error .ErrNotFound ∧
      (c.Delete env db dr).store = db ∧ ∀ e, Action.Send e ∉ (c.Delete env db dr).trace) ∧
    ((∀ k ∈ db.contacts, ¬(k.ID = lr.ContactId ∧ k.UserId = lr.UserId)) →
      (c.List env db lr).result = .error .ErrNotFound ∧
      (c.List env db lr).store = db ∧ ∀ e, Action.Send e ∉ (c.List env db lr).trace) := by
  refine ⟨?_, ?_, ?_, ?_, ?_⟩
  · intro h
    rw [Update_eq, find_contact_none _ _ _ h]
    repeat' split
    all_goals simp_all
  · intro h
    rw [Create_eq, find_contact_none _ _ _ h]
    repeat' split
    all_goals simp_all
  · intro h
    rw [Get_eq, find_contact_none _ _ _ h]
    repeat' split
    all_goals simp_all
  · intro h
    rw [Delete_eq, find_contact_none _ _ _ h]
    repeat' split
    all_goals simp_all
  · intro h
    rw [List_eq, find_contact_none _ _ _ h]
    repeat' split
    all_goals simp_all

/-- C5, amended, on the sample store: the update of user u2 for contact c1 of user u1,
accepted by the validator, returns the not-found error and changes nothing. -/
theorem C5_no_owned_contact_witness :
    (AddressUseCase.Update ⟨acceptAll, some okProducer⟩ sampleEnv sampleStore
        foreignUpdate).result = .error .ErrNotFound ∧
      (AddressUseCase.Update ⟨acceptAll, some okProducer⟩ sampleEnv sampleStore
        foreignUpdate).store = sampleStore := by
  have h := (C5_no_owned_contact ⟨acceptAll, some okProducer⟩ sampleEnv sampleStore
    sampleCreate foreignUpdate ⟨"u2", "c1", "a1"⟩ ⟨"u2", "c1", "a1"⟩ ⟨"u2", "c1"⟩).1
    (by decide)
  exact ⟨h.1 rfl, h.2.2.1⟩

/-- C6, as stated, fails for Delete: on the sample store, with a publisher configured,
Delete commits and makes no Send call. -/
theorem C6_counterexample :
    (AddressUseCase.mk acceptAll (some okProducer)).AddressProducer = some okProducer ∧
      (AddressUseCase.Delete ⟨acceptAll, some okProducer⟩ sampleEnv sampleStore
        sampleDelete).result = .ok () ∧
      Action.Commit true ∈ (AddressUseCase.Delete ⟨acceptAll, some okProducer⟩ sampleEnv
        sampleStore sampleDelete).trace ∧
      ∀ e, Action.Send e ∉ (AddressUseCase.Delete ⟨acceptAll, some okProducer⟩ sampleEnv
        sampleStore sampleDelete).trace := by
  refine ⟨rfl, by rfl, by decide, ?_⟩
  intro e
  rw [Delete_eq]
  repeat' split
  all_goals simp

/-- C6, amended: when the Commit of Create or of Update succeeds and a publisher is
configured, the operation calls Send, right after the commit, with the event built from
the row it has written; Delete never calls Send, whether a publisher is configured or
not. -/
theorem C6_create_update_announce (c : AddressUseCase) (env : Env) (db : Store)
    (cr : CreateAddressRequest) (ur : UpdateAddressRequest) (dr : DeleteAddressRequest) :
    (∀ p, c.AddressProducer = some p → Action.Commit true ∈ (c.Create env db cr).trace →
      ∃ pre post a, (c.Create env db cr).trace =
          pre ++ Action.Commit true :: Action.Send (converter.AddressToEvent a) :: post ∧
        (c.Create env db cr).store = db.insert a) ∧
    (∀ p, c.AddressProducer = some p → Action.Commit true ∈ (c.Update env db ur).trace →
      ∃ pre post a, (c.Update env db ur).trace =
          pre ++ Action.Commit true :: Action.Send (converter.AddressToEvent a) :: post ∧
        (c.Update env db ur).store = db.save a) ∧
    (∀ (v : Validator) (q : Option (Producer AddressEvent)) (e : AddressEvent),
      Action.Send e ∉ (AddressUseCase.Delete ⟨v, q⟩ env db dr).trace) := by
  refine ⟨?_, ?_, ?_⟩
  · intro p hp
    rw [Create_eq]
    simp only [hp]
    repeat' split
    all_goals simp
    all_goals
      exact ⟨[.Begin, .FindContact cr.ContactId cr.UserId, .Insert _], _, _, rfl, rfl⟩
  · intro p hp
    rw [Update_eq]
    simp only [hp]
    repeat' split
    all_goals simp
    all_goals
      exact ⟨[.Begin, .FindContact ur.ContactId ur.UserId, .FindAddress _ _, .Save _], _, _,
        rfl, rfl⟩
  · intro v q e
    rw [Delete_eq]
    repeat' split
    all_goals simp

/-- C6, amended, on the sample store: the committed Create calls Send right after the
commit, and the committed Delete without a publisher holds no Send. -/
theorem C6_create_update_announce_witness :
    (∃ pre post a, (AddressUseCase.Create ⟨acceptAll, some okProducer⟩ sampleEnv sampleStore
        sampleCreate).trace =
          pre ++ Action.Commit true :: Action.Send (converter.AddressToEvent a) :: post ∧
      (AddressUseCase.Create ⟨acceptAll, some okProducer⟩ sampleEnv sampleStore
        sampleCreate).store = sampleStore.insert a) ∧
    (Action.Commit true ∈ (AddressUseCase.Delete ⟨acceptAll, none⟩ sampleEnv sampleStore
        sampleDelete).trace ∧
      ∀ e, Action.Send e ∉ (AddressUseCase.Delete ⟨acceptAll, none⟩ sampleEnv sampleStore
        sampleDelete).trace) :=
  ⟨(C6_create_update_announce ⟨acceptAll, some okProducer⟩ sampleEnv sampleStore sampleCreate
      sampleUpdate sampleDelete).1 okProducer rfl (by decide),
    by decide,
    (C6_create_update_announce ⟨acceptAll, some okProducer⟩ sampleEnv sampleStore sampleCreate
      sampleUpdate sampleDelete).2.2 acceptAll none⟩

/-- C7: each of the five address operations calls Send at most once, whatever the
validator, the store failures and the publisher do; Get and List never call Send, and
when they return a result their transaction has been committed. -/
theorem C7_at_most_one_send (c : AddressUseCase) (env : Env) (db : Store)
    (cr : CreateAddressRequest) (ur : UpdateAddressRequest) (gr : GetAddressRequest)
    (dr : DeleteAddressRequest) (lr : ListAddressRequest) :
    sendCount (c.Create env db cr).trace ≤ 1 ∧
    sendCount (c.Update env db ur).trace ≤ 1 ∧
    sendCount (c.Delete env db dr).trace ≤ 1 ∧
    (sendCount (c.Get env db gr).trace = 0 ∧
      ∀ r, (c.Get env db gr).result = .ok r → Action.Commit true ∈ (c.Get env db gr).trace) ∧
    (sendCount (c.List env db lr).trace = 0 ∧
      ∀ r, (c.List env db lr).result = .ok r →
        Action.Commit true ∈ (c.List env db lr).trace) := by
  refine ⟨?_, ?_, ?_, ⟨?_, ?_⟩, ⟨?_, ?_⟩⟩
  · rw [Create_eq]
    repeat' split
    all_goals simp [sendCount, List.countP_cons, List.countP_append, List.countP_map]
  · rw [Update_eq]
    repeat' split
    all_goals simp [sendCount, List.countP_cons, List.countP_append, List.countP_map]
  · rw [Delete_eq]
    repeat' split
    all_goals simp [sendCount, List.countP_cons]
  · rw [Get_eq]
    repeat' split
    all_goals simp [sendCount, List.countP_cons]
  · rw [Get_eq]
    repeat' split
    all_goals simp
  · rw [List_eq]
    repeat' split
    all_goals simp [sendCount, List.countP_cons]
  · rw [List_eq]
    repeat' split
    all_goals simp

/-- C7 on the sample store: Get returns the stored address, has committed, and has not
called Send. -/
theorem C7_at_most_one_send_witness :
    Action.Commit true ∈ (AddressUseCase.Get ⟨acceptAll, some okProducer⟩ sampleEnv
        sampleStore ⟨"u1", "c1", "a1"⟩).trace ∧
      sendCount (AddressUseCase.Create ⟨acceptAll, some okProducer⟩ sampleEnv sampleStore
        sampleCreate).trace = 1 :=
  ⟨(C7_at_most_one_send ⟨acceptAll, some okProducer⟩ sampleEnv sampleStore sampleCreate
      sampleUpdate ⟨"u1", "c1", "a1"⟩ sampleDelete ⟨"u1", "c1"⟩).2.2.2.1.2
      (converter.AddressToResponse sampleAddress) rfl, by decide⟩

theorem find_created (l : List Address) (a : Address) (contactId : String)
    (hnew : ∀ x ∈ l, x.ID ≠ a.ID) (hc : a.ContactId = contactId) :
    (l ++ [a]).find? (fun x => decide (x.ID = a.ID) && decide (x.ContactId = contactId)) =
      some a := by
  have h : l.find? (fun x => decide (x.ID = a.ID) && decide (x.ContactId = contactId)) =
      none := by
    rw [List.find?_eq_none]
    intro x hx
    simp [hnew x hx]
  rw [List.find?_append, h]
  simp [hc]

theorem Create_ok (c : AddressUseCase) (env : Env) (db : Store) (cr : CreateAddressRequest)
    (r : AddressResponse) (hr : (c.Create env db cr).result = .ok r) :
    ∃ contact, db.contacts.find?
        (fun k => decide (k.ID = cr.ContactId) && decide (k.UserId = cr.UserId)) = some contact ∧
      (∀ a ∈ db.addresses, a.ID ≠ env.NewString) ∧
      r = converter.AddressToResponse (createdAddress env contact cr) ∧
      (c.Create env db cr).store = db.insert (createdAddress env contact cr) := by
  revert hr
  rw [Create_eq]
  repeat' split
  all_goals simp_all

/-- C8: when contact C belongs to user U and Create for (U, C) with the five address
fields returns a response r, a Get for (U, C, r.ID) run afterwards in its own
transaction against a store that serves its calls returns the address with id r.ID and
exactly those five fields; under store failures Get may return an error but never a
different address. -/
theorem C8_create_then_get (c c2 : AddressUseCase) (env env2 : Env) (db : Store)
    (cr : CreateAddressRequest) (r : AddressResponse)
    (_hown : ∃ k ∈ db.contacts, k.ID = cr.ContactId ∧ k.UserId = cr.UserId)
    (hr : (c.Create env db cr).result = .ok r) :
    (env2.faults = Faults.none →
      (c2.Get env2 (c.Create env db cr).store ⟨cr.UserId, cr.ContactId, r.ID⟩).result =
        .ok ⟨r.ID, cr.Street, cr.City, cr.Province, cr.PostalCode, cr.Country⟩) ∧
    (∀ x, (c2.Get env2 (c.Create env db cr).store ⟨cr.UserId, cr.ContactId, r.ID⟩).result =
        .ok x → x = ⟨r.ID, cr.Street, cr.City, cr.Province, cr.PostalCode, cr.Country⟩) := by
  obtain ⟨contact, hk, hnew, rfl, hs⟩ := Create_ok c env db cr r hr
  have hc := List.find?_some hk
  simp only [Bool.and_eq_true, decide_eq_true_eq] at hc
  have ha : (db.insert (createdAddress env contact cr)).addresses.find?
      (fun x => decide (x.ID = env.NewString) && decide (x.ContactId = cr.ContactId)) =
      some (createdAddress env contact cr) :=
    find_created db.addresses (createdAddress env contact cr) cr.ContactId hnew hc.1
  have hk2 : (db.insert (createdAddress env contact cr)).contacts.find?
      (fun k => decide (k.ID = cr.ContactId) && decide (k.UserId = cr.UserId)) = some contact :=
    hk
  rw [hs, Get_eq]
  simp only [converter.AddressToResponse, createdAddress] at ha hk2 ⊢
  simp only [hk2, ha]
  constructor
  · intro hf
    simp [hf, Faults.none]
  · intro x
    repeat' split
    all_goals simp
    all_goals
      intro h
      exact h.symm

/-- C8 on the sample store: after Create with street Main St, Get returns street
Main St. -/
theorem C8_create_then_get_witness :
    (AddressUseCase.Get ⟨acceptAll, none⟩ sampleEnv
        (AddressUseCase.Create ⟨acceptAll, some okProducer⟩ sampleEnv sampleStore
          sampleCreate).store ⟨"u1", "c1", "a2"⟩).result =
      .ok ⟨"a2", "Main St", "Jakarta", "DKI", "10110", "ID"⟩ :=
  (C8_create_then_get ⟨acceptAll, some okProducer⟩ ⟨acceptAll, none⟩ sampleEnv sampleEnv
    sampleStore sampleCreate ⟨"a2", "Main St", "Jakarta", "DKI", "10110", "ID"⟩
    ⟨sampleContact, by decide, rfl, rfl⟩ rfl).1 rfl

/-! ## Properties of the consumer loop -/

theorem ConsumeClaim_acked {σ : Type} (h : ConsumerGroupHandler σ) (schedule : List Select) :
    ∀ s, Acked (h.ConsumeClaim s schedule).log := by
  induction schedule with
  | nil => intro s; exact Acked.nil
  | cons ev rest ih =>
    intro s
    cases ev with
    | done => exact Acked.nil
    | message m =>
      cases m with
      | none => exact Acked.nil
      | some m =>
        rcases hh : h.Handler m s with ⟨err, s2⟩
        cases err with
        | none =>
          simp only [ConsumerGroupHandler.ConsumeClaim, hh]
          exact Acked.ok m _ (ih s2)
        | some e =>
          simp only [ConsumerGroupHandler.ConsumeClaim, hh]
          exact Acked.failed m e _ (ih s2)

theorem Acked.mark_after_success {l : List ClaimAction} (hl : Acked l) :
    ∀ pre post m, l = pre ++ ClaimAction.MarkMessage m :: post →
      ∃ pre2, pre = pre2 ++ [ClaimAction.Handler m none] := by
  induction hl with
  | nil => intro pre post m h; simp at h
  | failed m0 e r _ ih =>
    intro pre post m h
    cases pre with
    | nil => simp at h
    | cons x pre =>
      simp only [List.cons_append, List.cons.injEq] at h
      obtain ⟨pre2, rfl⟩ := ih pre post m h.2
      exact ⟨x :: pre2, rfl⟩
  | ok m0 r _ ih =>
    intro pre post m h
    cases pre with
    | nil => simp at h
    | cons x pre =>
      cases pre with
      | nil =>
        simp only [List.cons_append, List.nil_append, List.cons.injEq,
          ClaimAction.MarkMessage.injEq] at h
        obtain ⟨rfl, rfl, _⟩ := h
        exact ⟨[], rfl⟩
      | cons y pre =>
        simp only [List.cons_append, List.cons.injEq] at h
        obtain ⟨pre2, rfl⟩ := ih pre post m h.2.2
        exact ⟨x :: y :: pre2, rfl⟩

theorem Acked.success_then_mark {l : List ClaimAction} (hl : Acked l) :
    ∀ pre post m, l = pre ++ ClaimAction.Handler m none :: post →
      ∃ post2, post = ClaimAction.MarkMessage m :: post2 := by
  induction hl with
  | nil => intro pre post m h; simp at h
  | failed m0 e r _ ih =>
    intro pre post m h
    cases pre with
    | nil => simp at h
    | cons x pre =>
      simp only [List.cons_append, List.cons.injEq] at h
      exact ih pre post m h.2
  | ok m0 r _ ih =>
    intro pre post m h
    cases pre with
    | nil =>
      simp only [List.nil_append, List.cons.injEq, ClaimAction.Handler.injEq] at h
      obtain ⟨⟨rfl, _⟩, rfl⟩ := h
      exact ⟨r, rfl⟩
    | cons x pre =>
      cases pre with
      | nil => simp at h
      | cons y pre =>
        simp only [List.cons_append, List.cons.injEq] at h
        exact ih pre post m h.2.2

theorem Acked.no_mark_after_failure {l : List ClaimAction} (hl : Acked l) :
    ∀ pre post m e, l = pre ++ ClaimAction.Handler m (some e) :: post →
      ∀ m2 post2, post ≠ ClaimAction.MarkMessage m2 :: post2 := by
  induction hl with
  | nil => intro pre post m e h; simp at h
  | failed m0 e0 r hr ih =>
    intro pre post m e h
    cases pre with
    | nil =>
      simp only [List.nil_append, List.cons.injEq] at h
      obtain ⟨_, rfl⟩ := h
      intro m2 post2 hp
      subst hp
      cases hr
    | cons x pre =>
      simp only [List.cons_append, List.cons.injEq] at h
      exact ih pre post m e h.2
  | ok m0 r _ ih =>
    intro pre post m e h
    cases pre with
    | nil => simp at h
    | cons x pre =>
      cases pre with
      | nil => simp at h
      | cons y pre =>
        simp only [List.cons_append, List.cons.injEq] at h
        exact ih pre post m e h.2.2

theorem Acked.marked_eq_succeeded {l : List ClaimAction} (hl : Acked l) :
    marked l = succeeded l := by
  induction hl with
  | nil => rfl
  | failed m e r _ ih => simpa [marked, succeeded] using ih
  | ok m r _ ih => simpa [marked, succeeded] using ih

theorem ConsumeClaim_handled {σ : Type} (h : ConsumerGroupHandler σ) (schedule : List Select) :
    ∀ s, handled (h.ConsumeClaim s schedule).log = delivered schedule := by
  induction schedule with
  | nil => intro s; rfl
  | cons ev rest ih =>
    intro s
    cases ev with
    | done => rfl
    | message m =>
      cases m with
      | none => rfl
      | some m =>
        rcases hh : h.Handler m s with ⟨err, s2⟩
        cases err <;>
          simp [ConsumerGroupHandler.ConsumeClaim, hh, handled, delivered, ih s2]

theorem ConsumeClaim_claimOf {σ : Type} (h : ConsumerGroupHandler σ)
    (messages : List ConsumerMessage) :
    ∀ s, (h.ConsumeClaim s (claimOf messages)).returned = some none ∧
      delivered (claimOf messages) = messages := by
  induction messages with
  | nil => intro s; exact ⟨rfl, rfl⟩
  | cons m rest ih =>
    intro s
    rcases hh : h.Handler m s with ⟨err, s2⟩
    have ih2 := ih s2
    simp only [claimOf] at ih2
    cases err <;>
      simp [claimOf, ConsumerGroupHandler.ConsumeClaim, hh, delivered, ih2]

theorem ConsumeClaim_all_succeed {σ : Type} (h : ConsumerGroupHandler σ)
    (messages : List ConsumerMessage)
    (hok : ∀ m ∈ messages, ∀ s, (h.Handler m s).1 = none) :
    ∀ s, marked (h.ConsumeClaim s (claimOf messages)).log = messages := by
  induction messages with
  | nil => intro s; rfl
  | cons m rest ih =>
    intro s
    rcases hh : h.Handler m s with ⟨err, s2⟩
    have h1 := hok m (by simp) s
    rw [hh] at h1
    simp only at h1
    subst h1
    have ih2 := ih (fun x hx => hok x (by simp [hx])) s2
    simp only [claimOf] at ih2
    simp [claimOf, ConsumerGroupHandler.ConsumeClaim, hh, marked, ih2]

theorem foldl_consecutive (messages : List ConsumerMessage) :
    ∀ (n w : Int), w < n → consecutiveFrom n messages = true →
      messages.foldl (fun w m => max w m.Offset) w =
        if messages = [] then w else n + messages.length - 1 := by
  induction messages with
  | nil => intro n w _ _; rfl
  | cons m rest ih =>
    intro n w hw hc
    simp only [consecutiveFrom, Bool.and_eq_true, decide_eq_true_eq] at hc
    obtain ⟨hm, hrest⟩ := hc
    have hmax : max w m.Offset = n := by rw [hm]; exact max_eq_right (le_of_lt hw)
    simp only [List.foldl_cons, hmax]
    rw [ih (n + 1) n (by omega) hrest]
    by_cases hr : rest = []
    · subst hr; simp
    · simp only [hr, if_false, List.length_cons]
      simp
      omega

theorem consecutiveFrom_le (messages : List ConsumerMessage) :
    ∀ n, consecutiveFrom n messages = true → ∀ m ∈ messages, n ≤ m.Offset := by
  induction messages with
  | nil => intro n _ m hm; simp at hm
  | cons x rest ih =>
    intro n hc m hm
    simp only [consecutiveFrom, Bool.and_eq_true, decide_eq_true_eq] at hc
    rcases List.mem_cons.mp hm with rfl | hm
    · omega
    · have := ih (n + 1) hc.2 m hm
      omega

/-- C10, as stated, fails: with messages of offsets 5, 6, 7 and a handler that fails on
offset 5 and succeeds on 6 and 7, all three are delivered to the handler, and the marked
offset after the run, starting from 4, is 7, not 4. -/
theorem C10_counterexample :
    ((failsAt 5).Handler ⟨"addresses", 0, 5, [], []⟩ ()).1 ≠ none ∧
      ((failsAt 5).Handler ⟨"addresses", 0, 6, [], []⟩ ()).1 = none ∧
      ((failsAt 5).Handler ⟨"addresses", 0, 7, [], []⟩ ()).1 = none ∧
      handled ((failsAt 5).ConsumeClaim () (claimOf (messagesFrom 5 3))).log =
        messagesFrom 5 3 ∧
      markedOffset (5 - 1) ((failsAt 5).ConsumeClaim () (claimOf (messagesFrom 5 3))).log = 7 ∧
      markedOffset (5 - 1) ((failsAt 5).ConsumeClaim () (claimOf (messagesFrom 5 3))).log ≠
        5 - 1 := by
  decide

/-- C10, amended: when the handler fails on the message with offset N and succeeds on
the following messages N+1..N+k of the partition, all of them are delivered to the
handler, exactly the messages N+1..N+k are marked (never message N), and the marked
offset after the run, starting from N-1, is N+k when k is positive (it has moved past
the failed message) and N-1 only when k is zero. -/
theorem C10_offset_moves_past_failure {σ : Type} (h : ConsumerGroupHandler σ) (s : σ)
    (N : Int) (failed : ConsumerMessage) (rest : List ConsumerMessage)
    (hoff : consecutiveFrom N (failed :: rest) = true)
    (hfail : ∀ s, (h.Handler failed s).1 ≠ none)
    (hok : ∀ m ∈ rest, ∀ s, (h.Handler m s).1 = none) :
    handled (h.ConsumeClaim s (claimOf (failed :: rest))).log = failed :: rest ∧
    marked (h.ConsumeClaim s (claimOf (failed :: rest))).log = rest ∧
    failed ∉ marked (h.ConsumeClaim s (claimOf (failed :: rest))).log ∧
    markedOffset (N - 1) (h.ConsumeClaim s (claimOf (failed :: rest))).log =
      if rest = [] then N - 1 else N + rest.length := by
  simp only [consecutiveFrom, Bool.and_eq_true, decide_eq_true_eq] at hoff
  obtain ⟨hN, hrest⟩ := hoff
  rcases hh : h.Handler failed s with ⟨err, s2⟩
  have h1 := hfail s
  rw [hh] at h1
  obtain ⟨e, rfl⟩ := Option.ne_none_iff_exists'.mp h1
  have hm : marked (h.ConsumeClaim s (claimOf (failed :: rest))).log = rest := by
    have := ConsumeClaim_all_succeed h rest hok s2
    simp only [claimOf] at this
    simp [claimOf, ConsumerGroupHandler.ConsumeClaim, hh, marked, this]
  refine ⟨(ConsumeClaim_handled h _ s).trans (ConsumeClaim_claimOf h _ s).2, hm, ?_, ?_⟩
  · rw [hm]
    intro hmem
    have := consecutiveFrom_le rest (N + 1) hrest failed hmem
    omega
  · rw [markedOffset, hm, foldl_consecutive rest (N + 1) (N - 1) (by omega) hrest]
    split <;> omega

/-- C10, amended, on offsets 5, 6, 7: the messages with offsets 6 and 7 are marked and
the marked offset is 7. -/
theorem C10_offset_moves_past_failure_witness :
    marked ((failsAt 5).ConsumeClaim () (claimOf (messagesFrom 5 3))).log = messagesFrom 6 2 ∧
      markedOffset (5 - 1) ((failsAt 5).ConsumeClaim () (claimOf (messagesFrom 5 3))).log =
        5 + 2 := by
  have h := C10_offset_moves_past_failure (failsAt 5) () 5 ⟨"addresses", 0, 5, [], []⟩
    (messagesFrom 6 2) (by decide) (by intro s; simp [failsAt])
    (by
      intro m hm s
      have hm2 : m.Offset = 6 ∨ m.Offset = 7 := by
        simp [messagesFrom] at hm
        rcases hm with rfl | rfl <;> simp
      rcases hm2 with h6 | h7
      · simp [failsAt, h6]
      · simp [failsAt, h7])
  exact ⟨h.2.1, h.2.2.2.trans (by decide)⟩

theorem ConsumeClaim_returned {σ : Type} (h : ConsumerGroupHandler σ) (schedule : List Select) :
    ∀ s, (h.ConsumeClaim s schedule).returned = none ∨
      (h.ConsumeClaim s schedule).returned = some none := by
  induction schedule with
  | nil => intro s; exact Or.inl rfl
  | cons ev rest ih =>
    intro s
    cases ev with
    | done => exact Or.inr rfl
    | message m =>
      cases m with
      | none => exact Or.inr rfl
      | some m =>
        rcases hh : h.Handler m s with ⟨err, s2⟩
        cases err <;>
          simpa [ConsumerGroupHandler.ConsumeClaim, hh] using ih s2

theorem ConsumeClaim_stops {σ : Type} (h : ConsumerGroupHandler σ)
    (messages : List ConsumerMessage) (stop : Select) (rest : List Select)
    (hstop : stop = Select.message none ∨ stop = Select.done) :
    ∀ s, (h.ConsumeClaim s
        (messages.map (fun m => Select.message (some m)) ++ stop :: rest)).returned =
          some none ∧
      handled (h.ConsumeClaim s
        (messages.map (fun m => Select.message (some m)) ++ stop :: rest)).log = messages := by
  induction messages with
  | nil =>
    intro s
    rcases hstop with rfl | rfl <;> exact ⟨rfl, rfl⟩
  | cons m ms ih =>
    intro s
    rcases hh : h.Handler m s with ⟨err, s2⟩
    have ih2 := ih s2
    cases err <;>
      simp [ConsumerGroupHandler.ConsumeClaim, hh, handled, ih2]

theorem ConsumeClaim_calls {σ : Type} (h : ConsumerGroupHandler σ)
    (messages : List ConsumerMessage) (stop : Select) (rest : List Select)
    (hstop : stop = Select.message none ∨ stop = Select.done) :
    ∀ s, handlerCalls (h.ConsumeClaim s
        (messages.map (fun m => Select.message (some m)) ++ stop :: rest)).log =
      handlerResults h s messages := by
  induction messages with
  | nil =>
    intro s
    rcases hstop with rfl | rfl <;> rfl
  | cons m ms ih =>
    intro s
    rcases hh : h.Handler m s with ⟨err, s2⟩
    have ih2 := ih s2
    cases err <;>
      simp [ConsumerGroupHandler.ConsumeClaim, hh, handlerCalls, handlerResults, ih2]

/-- C11: for every handler and every finite sequence of non-nil messages delivered on a
claim, `ConsumeClaim` applies the handler to each message exactly once and in arrival
order, whatever the earlier handler calls returned: the handler calls it makes, with
their results, are exactly the results of applying the handler to the messages one after
the other; this goes on until the channel yields nil or the session context is done,
where it returns nil, and on no schedule does it return a non-nil error. -/
theorem C11_one_handler_call_per_message {σ : Type} (h : ConsumerGroupHandler σ) (s : σ)
    (messages : List ConsumerMessage) (rest schedule : List Select) :
    ((h.ConsumeClaim s (messages.map (fun m => Select.message (some m)) ++
        Select.message none :: rest)).returned = some none ∧
      handled (h.ConsumeClaim s (messages.map (fun m => Select.message (some m)) ++
        Select.message none :: rest)).log = messages ∧
      handlerCalls (h.ConsumeClaim s (messages.map (fun m => Select.message (some m)) ++
        Select.message none :: rest)).log = handlerResults h s messages) ∧
    ((h.ConsumeClaim s (messages.map (fun m => Select.message (some m)) ++
        Select.done :: rest)).returned = some none ∧
      handled (h.ConsumeClaim s (messages.map (fun m => Select.message (some m)) ++
        Select.done :: rest)).log = messages ∧
      handlerCalls (h.ConsumeClaim s (messages.map (fun m => Select.message (some m)) ++
        Select.done :: rest)).log = handlerResults h s messages) ∧
    (∀ e, (h.ConsumeClaim s schedule).returned ≠ some (some e)) := by
  refine ⟨⟨(ConsumeClaim_stops h messages _ rest (Or.inl rfl) s).1,
      (ConsumeClaim_stops h messages _ rest (Or.inl rfl) s).2,
      ConsumeClaim_calls h messages _ rest (Or.inl rfl) s⟩,
    ⟨(ConsumeClaim_stops h messages _ rest (Or.inr rfl) s).1,
      (ConsumeClaim_stops h messages _ rest (Or.inr rfl) s).2,
      ConsumeClaim_calls h messages _ rest (Or.inr rfl) s⟩, ?_⟩
  intro e he
  rcases ConsumeClaim_returned h schedule s with h1 | h1 <;> rw [h1] at he <;> simp at he

/-- C11 on offsets 5, 6, 7 with a handler that fails on offset 5: the handler is called
on the three messages in order, the first call returns the handler's error and the two
later calls return nil, and the call returns nil. -/
theorem C11_one_handler_call_per_message_witness :
    handlerCalls ((failsAt 5).ConsumeClaim () (claimOf (messagesFrom 5 3))).log =
        [(⟨"addresses", 0, 5, [], []⟩, some (.other "handler failed")),
          (⟨"addresses", 0, 6, [], []⟩, none), (⟨"addresses", 0, 7, [], []⟩, none)] ∧
      ((failsAt 5).ConsumeClaim () (claimOf (messagesFrom 5 3))).returned = some none :=
  ⟨(C11_one_handler_call_per_message (failsAt 5) () (messagesFrom 5 3) [] []).1.2.2.trans
      (by decide),
    (C11_one_handler_call_per_message (failsAt 5) () (messagesFrom 5 3) [] []).1.1⟩

theorem resubscribeLoop_running (topic : String) (cycles : List Cycle)
    (h : ∀ c ∈ cycles, c.ctxErr = none) :
    (ConsumeTopic.resubscribeLoop topic cycles).returned = false ∧
      consumeCalls (ConsumeTopic.resubscribeLoop topic cycles).log = cycles.length + 1 := by
  induction cycles with
  | nil => exact ⟨rfl, rfl⟩
  | cons c rest ih =>
    have hc : c.ctxErr = none := h c (by simp)
    have ih2 := ih (fun x hx => h x (by simp [hx]))
    cases he : c.consumeErr <;>
      simp [ConsumeTopic.resubscribeLoop, hc, he, consumeCalls, List.countP_cons] <;>
      simp [consumeCalls] at ih2 <;> simp [ih2]

theorem resubscribeLoop_stops (topic : String) (pre : List Cycle) (last : Cycle)
    (rest : List Cycle) (h : ∀ c ∈ pre, c.ctxErr = none) (hl : last.ctxErr ≠ none) :
    (ConsumeTopic.resubscribeLoop topic (pre ++ last :: rest)).returned = true ∧
      consumeCalls (ConsumeTopic.resubscribeLoop topic (pre ++ last :: rest)).log =
        pre.length + 1 := by
  induction pre with
  | nil =>
    obtain ⟨e, he⟩ := Option.ne_none_iff_exists'.mp hl
    cases hc : last.consumeErr <;>
      simp [ConsumeTopic.resubscribeLoop, he, hc, consumeCalls, List.countP_cons]
  | cons c pre ih =>
    have hc : c.ctxErr = none := h c (by simp)
    have ih2 := ih (fun x hx => h x (by simp [hx]))
    cases he : c.consumeErr <;>
      simp [ConsumeTopic.resubscribeLoop, hc, he, consumeCalls, List.countP_cons] <;>
      simp [consumeCalls] at ih2 <;> simp [ih2]

/-- C12: as long as `ctx.Err()` is nil after each return of `Consume`, the loop has not
returned and has called `Consume` once more than `Consume` has returned, whether those
returns were errors or nil; the loop returns exactly at the first return of `Consume`
after which `ctx.Err()` is not nil, having called `Consume` once per pass up to that one;
and it never returns without a non-nil `ctx.Err()`. -/
theorem C12_resubscribe_until_cancelled (topic : String) (pre : List Cycle) (last : Cycle)
    (rest : List Cycle) (h : ∀ c ∈ pre, c.ctxErr = none) (hl : last.ctxErr ≠ none) :
    ((ConsumeTopic.resubscribeLoop topic pre).returned = false ∧
      consumeCalls (ConsumeTopic.resubscribeLoop topic pre).log = pre.length + 1) ∧
    ((ConsumeTopic.resubscribeLoop topic (pre ++ last :: rest)).returned = true ∧
      consumeCalls (ConsumeTopic.resubscribeLoop topic (pre ++ last :: rest)).log =
        pre.length + 1) ∧
    (∀ cycles, (ConsumeTopic.resubscribeLoop topic cycles).returned = true →
      ∃ c ∈ cycles, c.ctxErr ≠ none) := by
  refine ⟨resubscribeLoop_running topic pre h, resubscribeLoop_stops topic pre last rest h hl,
    ?_⟩
  intro cycles hret
  by_contra hno
  have hall : ∀ c ∈ cycles, c.ctxErr = none := by
    intro c hc
    by_contra hne
    exact hno ⟨c, hc, hne⟩
  rw [(resubscribeLoop_running topic cycles hall).1] at hret
  simp at hret

/-- C12 on two failing passes followed by a cancelled one: the loop calls `Consume`
three times and returns. -/
theorem C12_resubscribe_until_cancelled_witness :
    (ConsumeTopic.resubscribeLoop "addresses"
        [⟨some (.other "rebalance"), none⟩, ⟨some (.other "rebalance"), none⟩,
          ⟨none, some (.other "context canceled")⟩]).returned = true ∧
      consumeCalls (ConsumeTopic.resubscribeLoop "addresses"
        [⟨some (.other "rebalance"), none⟩, ⟨some (.other "rebalance"), none⟩,
          ⟨none, some (.other "context canceled")⟩]).log = 3 :=
  (C12_resubscribe_until_cancelled "addresses"
    [⟨some (.other "rebalance"), none⟩, ⟨some (.other "rebalance"), none⟩]
    ⟨none, some (.other "context canceled")⟩ [] (by decide) (by decide)).2.1

/-! ## Properties of the publisher -/

/-- C13: when the event serialises, `Send` hands the transport exactly the message whose
topic is the producer's topic, whose key is the event's identifier and whose value is
the serialised event; so two events with the same identifier sent through one producer
give messages with equal key and equal topic. -/
theorem C13_message_keyed_by_event_id {T : Type} [Event T] (p : Producer T) (e1 e2 : T)
    (v1 v2 : List UInt8) (h1 : p.Marshal e1 = .ok v1) (h2 : p.Marshal e2 = .ok v2) :
    (p.Send e1).2 = [{ Topic := p.Topic, Key := Event.GetId e1, Value := v1 }] ∧
    (Event.GetId e1 = Event.GetId e2 →
      ∃ m1 m2, (p.Send e1).2 = [m1] ∧ (p.Send e2).2 = [m2] ∧
        m1.Key = m2.Key ∧ m1.Topic = m2.Topic) := by
  have hs : ∀ (e : T) (v : List UInt8), p.Marshal e = .ok v →
      (p.Send e).2 = [{ Topic := p.Topic, Key := Event.GetId e, Value := v }] := by
    intro e v h
    unfold Producer.Send
    rw [h]
    cases hm : p.SendMessage { Topic := p.Topic, Key := Event.GetId e, Value := v } <;>
      simp [hm]
  refine ⟨hs e1 v1 h1, ?_⟩
  intro hid
  exact ⟨_, _, hs e1 v1 h1, hs e2 v2 h2, hid, rfl⟩

/-- C13 on two events for address a1: both messages carry key a1 and topic addresses. -/
theorem C13_message_keyed_by_event_id_witness :
    ∃ m1 m2, (okProducer.Send (converter.AddressToEvent sampleAddress)).2 = [m1] ∧
      (okProducer.Send (converter.AddressToEvent
        (updatedAddress sampleAddress sampleUpdate))).2 = [m2] ∧
      m1.Key = m2.Key ∧ m1.Topic = m2.Topic :=
  (C13_message_keyed_by_event_id okProducer (converter.AddressToEvent sampleAddress)
    (converter.AddressToEvent (updatedAddress sampleAddress sampleUpdate)) [] [] rfl rfl).2 rfl

/-- C14: `Send` makes no `SendMessage` call when serialisation fails and exactly one
otherwise; it returns the serialisation error when serialisation fails, the error of
that one `SendMessage` call when the call fails, and nil when both succeed. -/
theorem C14_one_send_attempt {T : Type} [Event T] (p : Producer T) (e : T) :
    (∀ err, p.Marshal e = .error err → p.Send e = (some err, [])) ∧
    (∀ v, p.Marshal e = .ok v →
      (p.Send e).2 = [{ Topic := p.Topic, Key := Event.GetId e, Value := v }] ∧
      (∀ err, p.SendMessage { Topic := p.Topic, Key := Event.GetId e, Value := v } =
          .error err → (p.Send e).1 = some err) ∧
      (∀ r, p.SendMessage { Topic := p.Topic, Key := Event.GetId e, Value := v } = .ok r →
          (p.Send e).1 = none)) ∧
    (p.Send e).2.length ≤ 1 ∧
    ((p.Send e).1 ≠ none ↔
      (∃ err, p.Marshal e = .error err) ∨
      (∃ v err, p.Marshal e = .ok v ∧
        p.SendMessage { Topic := p.Topic, Key := Event.GetId e, Value := v } =
          .error err)) := by
  unfold Producer.Send
  cases hm : p.Marshal e with
  | error err => simp
  | ok v =>
    cases hs : p.SendMessage { Topic := p.Topic, Key := Event.GetId e, Value := v } <;>
      simp [hs]

/-- C14 on a transport that is down: one message is handed over and the transport's
error is returned unchanged. -/
theorem C14_one_send_attempt_witness :
    (downProducer.Send (converter.AddressToEvent sampleAddress)).2 =
        [{ Topic := "addresses", Key := "a1", Value := [] }] ∧
      (downProducer.Send (converter.AddressToEvent sampleAddress)).1 =
        some (.other "broker unreachable") :=
  ⟨((C14_one_send_attempt downProducer (converter.AddressToEvent sampleAddress)).2.1 []
      rfl).1,
    ((C14_one_send_attempt downProducer (converter.AddressToEvent sampleAddress)).2.1 []
      rfl).2.1 _ rfl⟩

theorem roundHalfEven_intCast (k : ℤ) : roundHalfEven (k : ℚ) = k := by
  simp [roundHalfEven]

theorem roundHalfEven_near (m : ℚ) : |(roundHalfEven m : ℚ) - m| ≤ 1 / 2 := by
  have h1 : (⌊m⌋ : ℚ) ≤ m := Int.floor_le m
  have h2 : m < ⌊m⌋ + 1 := Int.lt_floor_add_one m
  unfold roundHalfEven
  split_ifs with ha hb hc
  · rw [abs_le]; constructor <;> linarith
  · rw [abs_le]; push_cast; constructor <;> linarith
  · rw [abs_le]; constructor <;> linarith
  · rw [abs_le]; push_cast; constructor <;> linarith

theorem float64Pos_near (x : ℚ) (hx : 0 < x) : |float64Pos x - x| ≤ x / 2 ^ 53 := by
  have hb : (1 : ℕ) < 2 := by norm_num
  have hlog : ((2 : ℕ) : ℚ) ^ Int.log 2 x ≤ x := Int.zpow_log_le_self hb hx
  have hs : (0 : ℚ) < 2 ^ (Int.log 2 x - 52) := zpow_pos (by norm_num) _
  have hr := roundHalfEven_near (x / 2 ^ (Int.log 2 x - 52))
  have hx2 : x = x / 2 ^ (Int.log 2 x - 52) * 2 ^ (Int.log 2 x - 52) := by
    field_simp
  have : float64Pos x - x =
      ((roundHalfEven (x / 2 ^ (Int.log 2 x - 52)) : ℚ) - x / 2 ^ (Int.log 2 x - 52)) *
        2 ^ (Int.log 2 x - 52) := by
    unfold float64Pos
    rw [sub_mul, ← hx2]
  rw [this, abs_mul, abs_of_pos hs]
  have h53 : (2 : ℚ) ^ (Int.log 2 x - 52) = 2 ^ Int.log 2 x / 2 ^ 52 := by
    rw [zpow_sub₀ (by norm_num)]
    norm_num
  calc |(roundHalfEven (x / 2 ^ (Int.log 2 x - 52)) : ℚ) - x / 2 ^ (Int.log 2 x - 52)| *
        2 ^ (Int.log 2 x - 52)
      ≤ 1 / 2 * 2 ^ (Int.log 2 x - 52) := mul_le_mul_of_nonneg_right hr hs.le
    _ = 2 ^ Int.log 2 x / 2 ^ 53 := by rw [h53]; ring
    _ ≤ x / 2 ^ 53 := by
        apply div_le_div_of_nonneg_right _ (by positivity)
        simpa using hlog


theorem float64Pos_exact (x : ℚ) (k : ℤ) (hk : x / 2 ^ (Int.log 2 x - 52) = k) :
    float64Pos x = x := by
  have hs : (2 : ℚ) ^ (Int.log 2 x - 52) ≠ 0 := zpow_ne_zero _ (by norm_num)
  unfold float64Pos
  rw [hk, roundHalfEven_intCast, ← hk]
  field_simp

theorem float64Pos_int (k : ℤ) (h1 : 1 ≤ k) (h2 : k < 2 ^ 53) : float64Pos (k : ℚ) = k := by
  have hb : (1 : ℕ) < 2 := by norm_num
  have hpos : (0 : ℚ) < k := by exact_mod_cast (by omega : (0 : ℤ) < k)
  have hlt : Int.log 2 (k : ℚ) < 53 := by
    rw [← Int.lt_zpow_iff_log_lt hb hpos]
    have : ((k : ℤ) : ℚ) < ((2 ^ 53 : ℤ) : ℚ) := by exact_mod_cast h2
    norm_num at this ⊢
    exact this
  have hge : 0 ≤ Int.log 2 (k : ℚ) := by
    rw [← Int.zpow_le_iff_le_log hb hpos]
    have : ((1 : ℤ) : ℚ) ≤ (k : ℚ) := by exact_mod_cast h1
    norm_num at this ⊢
    exact this
  obtain ⟨n, hn⟩ : ∃ n : ℕ, Int.log 2 (k : ℚ) - 52 = -(n : ℤ) :=
    ⟨(52 - Int.log 2 (k : ℚ)).toNat, by omega⟩
  apply float64Pos_exact _ (k * 2 ^ n)
  rw [hn, zpow_neg, zpow_natCast]
  push_cast
  field_simp

theorem toFloat64_int (k : ℤ) (h1 : 0 ≤ k) (h2 : k < 2 ^ 53) : toFloat64 (k : ℚ) = k := by
  unfold toFloat64
  by_cases h0 : k = 0
  · simp [h0]
  · have hk : 1 ≤ k := by omega
    have hpos : (0 : ℚ) < k := by exact_mod_cast (by omega : (0 : ℤ) < k)
    rw [if_neg (ne_of_gt hpos), if_pos hpos, float64Pos_int k hk h2]


theorem float64Pos_two_pow_53_add_one :
    float64Pos (9007199254740993 : ℚ) = 9007199254740992 := by
  have hb : (1 : ℕ) < 2 := by norm_num
  have hlog : Int.log 2 (9007199254740993 : ℚ) = 53 := by
    have h1 : (53 : ℤ) ≤ Int.log 2 (9007199254740993 : ℚ) := by
      rw [← Int.zpow_le_iff_le_log hb (by norm_num)]
      norm_num
    have h2 : Int.log 2 (9007199254740993 : ℚ) < 54 := by
      rw [← Int.lt_zpow_iff_log_lt hb (by norm_num)]
      norm_num
    omega
  have hf : ⌊(9007199254740993 : ℚ) / 2 ^ ((53 : ℤ) - 52)⌋ = 4503599627370496 := by
    rw [Int.floor_eq_iff]
    norm_num
  unfold float64Pos roundHalfEven
  rw [hlog, hf]
  norm_num

theorem float64Pos_two_pow_53 : float64Pos (9007199254740992 : ℚ) = 9007199254740992 := by
  have hb : (1 : ℕ) < 2 := by norm_num
  have hlog : Int.log 2 (9007199254740992 : ℚ) = 53 := by
    have h : (9007199254740992 : ℚ) = ((2 : ℕ) : ℚ) ^ (53 : ℤ) := by norm_num
    rw [h, Int.log_zpow hb]
  apply float64Pos_exact _ 4503599627370496
  rw [hlog]
  norm_num


theorem roundHalfEven_bounds (m : ℚ) :
    ⌊m⌋ ≤ roundHalfEven m ∧ roundHalfEven m ≤ ⌊m⌋ + 1 := by
  unfold roundHalfEven
  split_ifs <;> constructor <;> omega

theorem float64Pos_ge (x : ℚ) (hx : 0 < x) : (2 : ℚ) ^ Int.log 2 x ≤ float64Pos x := by
  have hb : (1 : ℕ) < 2 := by norm_num
  have hlog : ((2 : ℕ) : ℚ) ^ Int.log 2 x ≤ x := Int.zpow_log_le_self hb hx
  have hlog2 : (2 : ℚ) ^ Int.log 2 x ≤ x := by simpa using hlog
  have hs : (0 : ℚ) < 2 ^ (Int.log 2 x - 52) := zpow_pos (by norm_num) _
  have h53 : (2 : ℚ) ^ Int.log 2 x = 4503599627370496 * 2 ^ (Int.log 2 x - 52) := by
    rw [zpow_sub₀ (by norm_num)]
    norm_num
    rw [mul_div_cancel₀]
    norm_num
  have hm : ((4503599627370496 : ℤ) : ℚ) ≤ x / 2 ^ (Int.log 2 x - 52) := by
    rw [le_div_iff₀ hs]
    push_cast
    rw [← h53]
    exact hlog2
  have hfl : (4503599627370496 : ℤ) ≤ ⌊x / 2 ^ (Int.log 2 x - 52)⌋ := Int.le_floor.mpr hm
  have hr : (4503599627370496 : ℤ) ≤ roundHalfEven (x / 2 ^ (Int.log 2 x - 52)) :=
    le_trans hfl (roundHalfEven_bounds _).1
  have hrq : (4503599627370496 : ℚ) ≤ (roundHalfEven (x / 2 ^ (Int.log 2 x - 52)) : ℚ) := by
    exact_mod_cast hr
  unfold float64Pos
  rw [h53]
  exact mul_le_mul_of_nonneg_right hrq hs.le

theorem float64Pos_le (x : ℚ) : float64Pos x ≤ (2 : ℚ) ^ (Int.log 2 x + 1) := by
  have hb : (1 : ℕ) < 2 := by norm_num
  have hlog : x < ((2 : ℕ) : ℚ) ^ (Int.log 2 x + 1) := Int.lt_zpow_succ_log_self hb x
  have hlog2 : x < (2 : ℚ) ^ (Int.log 2 x + 1) := by simpa using hlog
  have hs : (0 : ℚ) < 2 ^ (Int.log 2 x - 52) := zpow_pos (by norm_num) _
  have h53 : (2 : ℚ) ^ (Int.log 2 x + 1) = 9007199254740992 * 2 ^ (Int.log 2 x - 52) := by
    rw [zpow_sub₀ (by norm_num), zpow_add₀ (by norm_num)]
    norm_num
    ring
  have hm : x / 2 ^ (Int.log 2 x - 52) < ((9007199254740992 : ℤ) : ℚ) := by
    rw [div_lt_iff₀ hs]
    push_cast
    rw [← h53]
    exact hlog2
  have hfl : ⌊x / 2 ^ (Int.log 2 x - 52)⌋ < (9007199254740992 : ℤ) := Int.floor_lt.mpr hm
  have hr : roundHalfEven (x / 2 ^ (Int.log 2 x - 52)) ≤ (9007199254740992 : ℤ) :=
    le_trans (roundHalfEven_bounds _).2 (by omega)
  have hrq : (roundHalfEven (x / 2 ^ (Int.log 2 x - 52)) : ℚ) ≤ (9007199254740992 : ℚ) := by
    exact_mod_cast hr
  unfold float64Pos
  rw [h53]
  exact mul_le_mul_of_nonneg_right hrq hs.le

theorem float64Pos_near_pow (x : ℚ) :
    |float64Pos x - x| ≤ 2 ^ Int.log 2 x / 2 ^ 53 := by
  have hs : (0 : ℚ) < 2 ^ (Int.log 2 x - 52) := zpow_pos (by norm_num) _
  have hr := roundHalfEven_near (x / 2 ^ (Int.log 2 x - 52))
  have hx2 : x = x / 2 ^ (Int.log 2 x - 52) * 2 ^ (Int.log 2 x - 52) := by
    field_simp
  have : float64Pos x - x =
      ((roundHalfEven (x / 2 ^ (Int.log 2 x - 52)) : ℚ) - x / 2 ^ (Int.log 2 x - 52)) *
        2 ^ (Int.log 2 x - 52) := by
    unfold float64Pos
    rw [sub_mul, ← hx2]
  rw [this, abs_mul, abs_of_pos hs]
  have h53 : (2 : ℚ) ^ (Int.log 2 x - 52) = 2 ^ Int.log 2 x / 2 ^ 52 := by
    rw [zpow_sub₀ (by norm_num)]
    norm_num
  calc |(roundHalfEven (x / 2 ^ (Int.log 2 x - 52)) : ℚ) - x / 2 ^ (Int.log 2 x - 52)| *
        2 ^ (Int.log 2 x - 52)
      ≤ 1 / 2 * 2 ^ (Int.log 2 x - 52) := mul_le_mul_of_nonneg_right hr hs.le
    _ = 2 ^ Int.log 2 x / 2 ^ 53 := by rw [h53]; ring

theorem float64Pos_near_strict (x : ℚ) (hx : 0 < x) :
    float64Pos x = x ∨ |float64Pos x - x| < x / 2 ^ 53 := by
  have hb : (1 : ℕ) < 2 := by norm_num
  have hlog : ((2 : ℕ) : ℚ) ^ Int.log 2 x ≤ x := Int.zpow_log_le_self hb hx
  have hlog2 : (2 : ℚ) ^ Int.log 2 x ≤ x := by simpa using hlog
  rcases eq_or_lt_of_le hlog2 with heq | hlt
  · left
    apply float64Pos_exact x 4503599627370496
    have h53 : (2 : ℚ) ^ Int.log 2 x = 4503599627370496 * 2 ^ (Int.log 2 x - 52) := by
      rw [zpow_sub₀ (by norm_num)]
      norm_num
      rw [mul_div_cancel₀]
      norm_num
    have hs : (2 : ℚ) ^ (Int.log 2 x - 52) ≠ 0 := zpow_ne_zero _ (by norm_num)
    rw [div_eq_iff hs]
    push_cast
    rw [← h53, heq]
  · right
    calc |float64Pos x - x| ≤ 2 ^ Int.log 2 x / 2 ^ 53 := float64Pos_near_pow x
      _ < x / 2 ^ 53 := by
        apply div_lt_div_of_pos_right hlt (by positivity)

theorem float64Pos_int_le (k : ℤ) (h1 : 1 ≤ k) (h2 : k ≤ 2 ^ 53) : float64Pos (k : ℚ) = k := by
  rcases lt_or_eq_of_le h2 with h | h
  · exact float64Pos_int k h1 h
  · subst h
    have := float64Pos_two_pow_53
    norm_num at this ⊢
    exact this

theorem toFloat64_int_le (k : ℤ) (h1 : 0 ≤ k) (h2 : k ≤ 2 ^ 53) : toFloat64 (k : ℚ) = k := by
  unfold toFloat64
  by_cases h0 : k = 0
  · simp [h0]
  · have hk : 1 ≤ k := by omega
    have hpos : (0 : ℚ) < k := by exact_mod_cast (by omega : (0 : ℤ) < k)
    rw [if_neg (ne_of_gt hpos), if_pos hpos, float64Pos_int_le k hk h2]

theorem toFloat64_ceil_div (total size : ℤ) (ht0 : 0 ≤ total) (ht : total ≤ 2 ^ 53)
    (hs0 : 0 < size) :
    ⌈toFloat64 ((total : ℚ) / (size : ℚ))⌉ = ⌈(total : ℚ) / (size : ℚ)⌉ := by
  have hS : (0 : ℚ) < size := by exact_mod_cast hs0
  by_cases h0 : total = 0
  · simp [h0, toFloat64]
  have hT : (0 : ℚ) < total := by exact_mod_cast (by omega : (0 : ℤ) < total)
  have hx : (0 : ℚ) < (total : ℚ) / size := div_pos hT hS
  have hq : toFloat64 ((total : ℚ) / size) = float64Pos ((total : ℚ) / size) := by
    unfold toFloat64
    rw [if_neg (ne_of_gt hx), if_pos hx]
  rw [hq]
  have hup : (total : ℚ) / size ≤ (⌈(total : ℚ) / (size : ℚ)⌉ : ℚ) := Int.le_ceil _
  have hlo : (⌈(total : ℚ) / (size : ℚ)⌉ : ℚ) < (total : ℚ) / size + 1 := Int.ceil_lt_add_one _
  generalize hk : ⌈(total : ℚ) / (size : ℚ)⌉ = k at hup hlo
  have hup2 : total ≤ k * size := by
    have : (total : ℚ) ≤ k * size := (div_le_iff₀ hS).mp hup
    exact_mod_cast this
  have hlo2 : (k - 1) * size < total := by
    have h1 : (k : ℚ) - 1 < (total : ℚ) / size := by linarith
    have : ((k : ℚ) - 1) * size < total := (lt_div_iff₀ hS).mp h1
    exact_mod_cast this
  have hk1 : 1 ≤ k := by
    by_contra hneg
    have : k * size ≤ 0 := Int.mul_nonpos_of_nonpos_of_nonneg (by omega) hs0.le
    omega
  by_cases hdiv : total = k * size
  · have hxk : (total : ℚ) / size = k := by
      rw [div_eq_iff (ne_of_gt hS)]
      exact_mod_cast hdiv
    have hk53 : k ≤ 2 ^ 53 := by nlinarith
    rw [hxk, float64Pos_int_le k hk1 hk53, Int.ceil_intCast]
  · have hup3 : total + 1 ≤ k * size := by omega
    have hlo3 : (k - 1) * size + 1 ≤ total := by omega
    have hupq : (total : ℚ) + 1 ≤ k * size := by exact_mod_cast hup3
    have hloq : ((k : ℚ) - 1) * size + 1 ≤ total := by exact_mod_cast hlo3
    have hT53 : (total : ℚ) ≤ 2 ^ 53 := by exact_mod_cast ht
    have hbound : (total : ℚ) / size / 2 ^ 53 ≤ 1 / size := by
      rw [div_div, div_le_div_iff₀ (by positivity) hS]
      nlinarith
    have hone : (0 : ℚ) < 1 / size := by positivity
    have herr : |float64Pos ((total : ℚ) / size) - (total : ℚ) / size| < 1 / size := by
      rcases float64Pos_near_strict _ hx with he | hlt
      · rw [he, sub_self, abs_zero]
        exact hone
      · exact lt_of_lt_of_le hlt hbound
    rw [abs_lt] at herr
    have hxu : (total : ℚ) / size ≤ (k : ℚ) - 1 / size := by
      rw [le_sub_iff_add_le, ← add_div, div_le_iff₀ hS]
      exact hupq
    have hxl : (k : ℚ) - 1 + 1 / size ≤ (total : ℚ) / size := by
      rw [le_div_iff₀ hS, add_mul, one_div, inv_mul_cancel₀ (ne_of_gt hS)]
      exact hloq
    rw [Int.ceil_eq_iff]
    constructor <;> linarith [herr.1, herr.2]

theorem toFloat64_large (size : ℤ) (hs : 2 ^ 53 ≤ size) :
    (2 : ℚ) ^ (53 : ℤ) ≤ toFloat64 (size : ℚ) := by
  have hb : (1 : ℕ) < 2 := by norm_num
  have hpos : (0 : ℚ) < size := by exact_mod_cast (by omega : (0 : ℤ) < size)
  have hq : toFloat64 (size : ℚ) = float64Pos (size : ℚ) := by
    unfold toFloat64
    rw [if_neg (ne_of_gt hpos), if_pos hpos]
  have h53 : ((2 : ℕ) : ℚ) ^ (53 : ℤ) ≤ (size : ℚ) := by
    have : ((2 ^ 53 : ℤ) : ℚ) ≤ (size : ℚ) := by exact_mod_cast hs
    norm_num at this ⊢
    exact this
  have hlog : (53 : ℤ) ≤ Int.log 2 (size : ℚ) := (Int.zpow_le_iff_le_log hb hpos).mp h53
  rw [hq]
  exact le_trans (zpow_le_zpow_right₀ (by norm_num) hlog) (float64Pos_ge _ hpos)

theorem toFloat64_ceil_small (x : ℚ) (h0 : 0 < x) (h1 : x ≤ 1) : ⌈toFloat64 x⌉ = 1 := by
  have hb : (1 : ℕ) < 2 := by norm_num
  have hq : toFloat64 x = float64Pos x := by
    unfold toFloat64
    rw [if_neg (ne_of_gt h0), if_pos h0]
  rw [hq, Int.ceil_eq_iff]
  have hge := float64Pos_ge x h0
  have hlow : (0 : ℚ) < 2 ^ Int.log 2 x := zpow_pos (by norm_num) _
  constructor
  · push_cast
    linarith
  · rcases eq_or_lt_of_le h1 with he | hlt
    · subst he
      have := float64Pos_int 1 (by norm_num) (by norm_num)
      push_cast at this ⊢
      rw [this]
    · have hx : x < ((2 : ℕ) : ℚ) ^ (0 : ℤ) := by simpa using hlt
      have hlog : Int.log 2 x < 0 := (Int.lt_zpow_iff_log_lt hb h0).mp hx
      have hle := float64Pos_le x
      have h2 : (2 : ℚ) ^ (Int.log 2 x + 1) ≤ 2 ^ (0 : ℤ) :=
        zpow_le_zpow_right₀ (by norm_num) (by omega)
      push_cast
      simp only [zpow_zero] at h2
      linarith

theorem TotalPage_eq_ceil (total size : ℤ) (ht0 : 0 ≤ total) (ht : total ≤ 2 ^ 53)
    (hs0 : 0 < size) : TotalPage total size = some ⌈(total : ℚ) / (size : ℚ)⌉ := by
  have hS : (0 : ℚ) < size := by exact_mod_cast hs0
  have hT0 : (0 : ℚ) ≤ total := by exact_mod_cast ht0
  have hT53 : (total : ℚ) ≤ 2 ^ 53 := by exact_mod_cast ht
  have hn0 : 0 ≤ ⌈(total : ℚ) / (size : ℚ)⌉ := Int.ceil_nonneg (div_nonneg hT0 hS.le)
  have hnt : ⌈(total : ℚ) / (size : ℚ)⌉ ≤ total := by
    rw [Int.ceil_le, div_le_iff₀ hS]
    have : total ≤ total * size := by nlinarith
    exact_mod_cast this
  have hran : -2 ^ 63 ≤ ⌈(total : ℚ) / (size : ℚ)⌉ ∧ ⌈(total : ℚ) / (size : ℚ)⌉ < 2 ^ 63 := by
    constructor <;> omega
  have hfin : ⌈toFloat64 (toFloat64 (total : ℚ) / toFloat64 (size : ℚ))⌉ =
      ⌈(total : ℚ) / (size : ℚ)⌉ := by
    rw [toFloat64_int_le total ht0 ht]
    by_cases hs : size ≤ 2 ^ 53
    · rw [toFloat64_int_le size hs0.le hs]
      exact toFloat64_ceil_div total size ht0 ht hs0
    · have hbig := toFloat64_large size (by omega)
      have hbig2 : (2 : ℚ) ^ 53 ≤ toFloat64 (size : ℚ) := by
        norm_num at hbig ⊢
        exact hbig
      have hF : (0 : ℚ) < toFloat64 (size : ℚ) := lt_of_lt_of_le (by norm_num) hbig2
      have hsz : (2 : ℚ) ^ 53 < size := by exact_mod_cast (by omega : (2 : ℤ) ^ 53 < size)
      by_cases h0 : total = 0
      · simp [h0, toFloat64]
      · have hT : (0 : ℚ) < total := by exact_mod_cast (by omega : (0 : ℤ) < total)
        have hx1 : (total : ℚ) / toFloat64 (size : ℚ) ≤ 1 := by
          rw [div_le_one hF]
          linarith
        rw [toFloat64_ceil_small _ (div_pos hT hF) hx1, eq_comm, Int.ceil_eq_iff]
        constructor
        · push_cast
          simpa using div_pos hT hS
        · push_cast
          rw [div_le_one hS]
          linarith
  unfold TotalPage
  rw [if_neg (ne_of_gt hs0)]
  simp only
  rw [hfin, if_pos hran]

/-- C16, as stated, fails: for total 2^53 + 1 and size 1 the conversion to float64 drops
the last unit, so `TotalPage` is 2^53, which is less than the total and hence not the
ceiling of total divided by size. -/
theorem C16_counterexample :
    TotalPage 9007199254740993 1 = some 9007199254740992 ∧
      ¬((9007199254740993 : ℤ) ≤ 9007199254740992 * 1) := by
  refine ⟨?_, by norm_num⟩
  have h1 : toFloat64 ((9007199254740993 : ℤ) : ℚ) = 9007199254740992 := by
    unfold toFloat64
    norm_num [float64Pos_two_pow_53_add_one]
  have h2 : toFloat64 ((1 : ℤ) : ℚ) = 1 := by
    simpa using toFloat64_int 1 (by norm_num) (by norm_num)
  have h3 : toFloat64 (9007199254740992 / 1 : ℚ) = 9007199254740992 := by
    unfold toFloat64
    norm_num [float64Pos_two_pow_53]
  unfold TotalPage
  rw [h1, h2, h3]
  norm_num

/-- C16, amended: for every total with 0 <= total <= 2^53, the range in which float64
holds every item count exactly, and every page size above 0, `TotalPage` is the ceiling of
total divided by size: the least integer n with n * size >= total, which is 0 when total
is 0 and total / size when size divides total. -/
theorem C16_total_page_is_ceiling (total size : ℤ) (ht0 : 0 ≤ total) (ht : total ≤ 2 ^ 53)
    (hs0 : 0 < size) :
    ∃ n : ℤ, TotalPage total size = some n ∧ n = ⌈(total : ℚ) / (size : ℚ)⌉ ∧
      total ≤ n * size ∧ (∀ m : ℤ, total ≤ m * size → n ≤ m) ∧
      (total = 0 → n = 0) ∧ (size ∣ total → n = total / size) := by
  have hS : (0 : ℚ) < size := by exact_mod_cast hs0
  have hle : total ≤ ⌈(total : ℚ) / (size : ℚ)⌉ * size := by
    have : (total : ℚ) ≤ (⌈(total : ℚ) / (size : ℚ)⌉ : ℚ) * size :=
      (div_le_iff₀ hS).mp (Int.le_ceil _)
    exact_mod_cast this
  have hleast : ∀ m : ℤ, total ≤ m * size → ⌈(total : ℚ) / (size : ℚ)⌉ ≤ m := by
    intro m hm
    rw [Int.ceil_le, div_le_iff₀ hS]
    exact_mod_cast hm
  refine ⟨⌈(total : ℚ) / (size : ℚ)⌉, TotalPage_eq_ceil total size ht0 ht hs0, rfl, hle,
    hleast, ?_, ?_⟩
  · intro h
    simp [h]
  · rintro ⟨q, rfl⟩
    have : ((size * q : ℤ) : ℚ) / (size : ℚ) = q := by
      push_cast
      field_simp
    rw [this, Int.ceil_intCast, Int.mul_ediv_cancel_left _ (ne_of_gt hs0)]

/-- C16, amended, on 25 items in pages of 10: three pages; and on 2^53 items with a page
size of 2^53 + 1, which float64 does not hold: one page. -/
theorem C16_total_page_is_ceiling_witness :
    TotalPage 25 10 = some 3 ∧ TotalPage 9007199254740992 9007199254740993 = some 1 := by
  constructor
  · obtain ⟨n, h1, _, h3, h4, _⟩ :=
      C16_total_page_is_ceiling 25 10 (by norm_num) (by norm_num) (by norm_num)
    have h5 : n ≤ 3 := h4 3 (by norm_num)
    have h6 : n = 3 := by omega
    rw [h1, h6]
  · obtain ⟨n, h1, _, h3, h4, _⟩ :=
      C16_total_page_is_ceiling 9007199254740992 9007199254740993 (by norm_num) (by norm_num)
        (by norm_num)
    have h5 : n ≤ 1 := h4 1 (by norm_num)
    have h6 : n = 1 := by omega
    rw [h1, h6]

/-! ## Properties of the contact search -/

theorem wrapInt64_id (x : ℤ) (h1 : -2 ^ 63 ≤ x) (h2 : x < 2 ^ 63) : wrapInt64 x = x := by
  unfold wrapInt64
  rw [Int.emod_eq_of_lt (by omega) (by omega)]
  omega

/-- C17, as stated, fails: for page 2^61 + 1 and size 4 the offset (page - 1) * size is
2^63, which wraps to a negative number in Go's 64-bit `int`; no OFFSET is issued, so the
query skips no row, and pages 2^61 + 1 and 2^61 + 2 both hold the first rows of the
result instead of being disjoint. -/
theorem C17_counterexample :
    ContactRepository.Search ilikeAny ⟨false, false⟩ threeContacts
        ⟨"u1", "", "", "", 2305843009213693953, 4⟩ = .ok (threeContacts, 3) ∧
      ContactRepository.Search ilikeAny ⟨false, false⟩ threeContacts
        ⟨"u1", "", "", "", 2305843009213693954, 4⟩ = .ok (threeContacts, 3) ∧
      threeContacts.drop ((2305843009213693953 - 1) * 4) = [] ∧
      threeContacts ≠ [] := by
  refine ⟨?_, ?_, by decide, by decide⟩
  · have hw : wrapInt64 (wrapInt64 2305843009213693952 * 4) = -9223372036854775808 := by
      unfold wrapInt64
      norm_num
    simp [ContactRepository.Search, hw, Offset, Limit, Scopes,
      ContactRepository.FilterContact, threeContacts, Cond.holds]
  · have hw : wrapInt64 (wrapInt64 2305843009213693953 * 4) = -9223372036854775804 := by
      unfold wrapInt64
      norm_num
    simp [ContactRepository.Search, hw, Offset, Limit, Scopes,
      ContactRepository.FilterContact, threeContacts, Cond.holds]

theorem Search_page (ilike : String → String → Bool) (rows : List Contact)
    (request : SearchContactRequest)
    (hp : 1 ≤ request.Page ∧ request.Page < 2 ^ 63)
    (hs : 0 ≤ request.Size ∧ request.Size < 2 ^ 63)
    (hno : (request.Page - 1) * request.Size < 2 ^ 63) :
    Limit request.Size
        (Offset (wrapInt64 (wrapInt64 (request.Page - 1) * request.Size))
          (Scopes ilike (ContactRepository.FilterContact request) rows)) =
      ((Scopes ilike (ContactRepository.FilterContact request) rows).drop
        ((request.Page - 1) * request.Size).toNat).take request.Size.toNat := by
  have h0 : 0 ≤ (request.Page - 1) * request.Size :=
    Int.mul_nonneg (by omega) hs.1
  rw [wrapInt64_id (request.Page - 1) (by omega) (by omega),
    wrapInt64_id _ (by omega) hno]
  unfold Limit Offset
  rw [if_pos hs.1]
  split
  · rfl
  · have : (request.Page - 1) * request.Size = 0 := by omega
    simp [this]

/-- C17, amended: for page p >= 1 and size s >= 0 whose offset (p - 1) * s does not
overflow Go's 64-bit `int`, the page query skips exactly (p - 1) * s rows of the
filtered result and returns at most s rows; page 1 starts at the first matching row,
page p holds the result indices (p - 1) * s up to p * s - 1, and pages p and p + 1 are
contiguous. -/
theorem C17_offset_limit_paging (ilike : String → String → Bool) (faults : SearchFaults)
    (rows : List Contact) (request : SearchContactRequest)
    (hp : 1 ≤ request.Page ∧ request.Page < 2 ^ 63)
    (hs : 0 ≤ request.Size ∧ request.Size < 2 ^ 63)
    (hno : (request.Page - 1) * request.Size < 2 ^ 63) :
    (∃ total, ContactRepository.Search ilike ⟨false, false⟩ rows request =
      .ok (((Scopes ilike (ContactRepository.FilterContact request) rows).drop
        ((request.Page - 1) * request.Size).toNat).take request.Size.toNat, total)) ∧
    (∀ contacts total, ContactRepository.Search ilike faults rows request =
        .ok (contacts, total) →
      contacts = ((Scopes ilike (ContactRepository.FilterContact request) rows).drop
        ((request.Page - 1) * request.Size).toNat).take request.Size.toNat ∧
      (contacts.length : ℤ) ≤ request.Size ∧
      (request.Page = 1 → contacts =
        (Scopes ilike (ContactRepository.FilterContact request) rows).take
          request.Size.toNat) ∧
      (∀ i : ℕ, (i : ℤ) < request.Size → contacts.get? i =
        (Scopes ilike (ContactRepository.FilterContact request) rows).get?
          (((request.Page - 1) * request.Size).toNat + i)) ∧
      (request.Page + 1 < 2 ^ 63 → request.Page * request.Size < 2 ^ 63 →
        ∀ next total2, ContactRepository.Search ilike faults rows
            { request with Page := request.Page + 1 } = .ok (next, total2) →
          contacts ++ next =
            ((Scopes ilike (ContactRepository.FilterContact request) rows).drop
              ((request.Page - 1) * request.Size).toNat).take
                (request.Size.toNat + request.Size.toNat))) := by
  have hpage := Search_page ilike rows request hp hs hno
  refine ⟨⟨((Scopes ilike (ContactRepository.FilterContact request) rows).length : ℤ),
    by simp [ContactRepository.Search, hpage]⟩, ?_⟩
  intro contacts total hsearch
  have hc : contacts = ((Scopes ilike (ContactRepository.FilterContact request) rows).drop
      ((request.Page - 1) * request.Size).toNat).take request.Size.toNat := by
    unfold ContactRepository.Search at hsearch
    rw [hpage] at hsearch
    split at hsearch
    · simp at hsearch
    · split at hsearch
      · simp at hsearch
      · simp only [Except.ok.injEq, Prod.mk.injEq] at hsearch
        exact hsearch.1.symm
  refine ⟨hc, ?_, ?_, ?_, ?_⟩
  · rw [hc, List.length_take]
    have : ((min request.Size.toNat
        ((Scopes ilike (ContactRepository.FilterContact request) rows).drop
          ((request.Page - 1) * request.Size).toNat).length : ℕ) : ℤ) ≤ request.Size.toNat := by
      exact_mod_cast Nat.min_le_left _ _
    omega
  · intro h1
    rw [hc, h1]
    simp
  · intro i hi
    have hi2 : i < request.Size.toNat := by omega
    rw [hc, List.get?_eq_getElem?, List.get?_eq_getElem?, List.getElem?_take_of_lt hi2,
      List.getElem?_drop]
  · intro hp2 hno2 next total2 hnext
    have hpage2 := Search_page ilike rows { request with Page := request.Page + 1 }
      ⟨by simp; omega, by simpa using hp2⟩ hs (by simpa using hno2)
    have hf : ContactRepository.FilterContact { request with Page := request.Page + 1 } =
        ContactRepository.FilterContact request := rfl
    have hn : next = ((Scopes ilike (ContactRepository.FilterContact request) rows).drop
        (request.Page * request.Size).toNat).take request.Size.toNat := by
      unfold ContactRepository.Search at hnext
      rw [hpage2] at hnext
      split at hnext
      · simp at hnext
      · split at hnext
        · simp at hnext
        · simp only [Except.ok.injEq, Prod.mk.injEq] at hnext
          rw [hf] at hnext
          simpa using hnext.1.symm
    have h0 : 0 ≤ (request.Page - 1) * request.Size := Int.mul_nonneg (by omega) hs.1
    have hsum : (request.Page * request.Size).toNat =
        ((request.Page - 1) * request.Size).toNat + request.Size.toNat := by
      have : request.Page * request.Size = (request.Page - 1) * request.Size + request.Size := by
        ring
      rw [this, Int.toNat_add h0 hs.1]
    rw [hc, hn, hsum, List.take_add, List.drop_drop]

/-- C17, amended, on three contacts in pages of two: page 1 holds the first two rows and
page 2 the third. -/
theorem C17_offset_limit_paging_witness :
    ContactRepository.Search ilikeAny ⟨false, false⟩ threeContacts ⟨"u1", "", "", "", 2, 2⟩ =
      .ok (threeContacts.drop 2, 3) := by
  obtain ⟨total, h⟩ := (C17_offset_limit_paging ilikeAny ⟨false, false⟩ threeContacts
    ⟨"u1", "", "", "", 2, 2⟩ (by decide) (by decide) (by decide)).1
  rw [h]
  simp [ContactRepository.Search] at h
  simp [Scopes, ContactRepository.FilterContact, threeContacts, Cond.holds, ← h.2]


theorem FilterContact_all (ilike : String → String → Bool) (request : SearchContactRequest)
    (c : Contact) :
    (ContactRepository.FilterContact request).all (fun k => k.holds ilike c) =
      (decide (c.UserId = request.UserId) &&
        (decide (request.Name = "") ||
          (ilike c.FirstName ("%" ++ request.Name ++ "%") ||
            ilike c.LastName ("%" ++ request.Name ++ "%"))) &&
        (decide (request.Phone = "") || ilike c.Phone ("%" ++ request.Phone ++ "%")) &&
        (decide (request.Email = "") || ilike c.Email ("%" ++ request.Email ++ "%"))) := by
  unfold ContactRepository.FilterContact
  by_cases hn : request.Name = "" <;> by_cases hp : request.Phone = "" <;>
    by_cases he : request.Email = "" <;>
    simp [hn, hp, he, Cond.holds, List.all_append, Bool.and_assoc]

/-- C18: the filter built by `FilterContact` is the condition on the user id followed by
one condition for each of Name, Phone and Email that is not the empty string; a row
passes the scope exactly when the user id matches and every such condition holds, so
with all three empty the scope selects exactly the contacts of that user; and `Search`
applies this one filter to the page query and to the count: when its two queries do not
fail it returns the page of the filtered rows and the number of the filtered rows. -/
theorem C18_filter_is_conjunction (ilike : String → String → Bool) (faults : SearchFaults)
    (rows : List Contact) (request : SearchContactRequest) :
    ContactRepository.FilterContact request =
      [Cond.userIdEq request.UserId] ++
        (if request.Name ≠ "" then [Cond.nameLike ("%" ++ request.Name ++ "%")] else []) ++
        (if request.Phone ≠ "" then [Cond.phoneLike ("%" ++ request.Phone ++ "%")] else []) ++
        (if request.Email ≠ "" then [Cond.emailLike ("%" ++ request.Email ++ "%")] else []) ∧
    (∀ c, c ∈ Scopes ilike (ContactRepository.FilterContact request) rows ↔
      c ∈ rows ∧ c.UserId = request.UserId ∧
        (request.Name ≠ "" → ilike c.FirstName ("%" ++ request.Name ++ "%") = true ∨
          ilike c.LastName ("%" ++ request.Name ++ "%") = true) ∧
        (request.Phone ≠ "" → ilike c.Phone ("%" ++ request.Phone ++ "%") = true) ∧
        (request.Email ≠ "" → ilike c.Email ("%" ++ request.Email ++ "%") = true)) ∧
    (request.Name = "" → request.Phone = "" → request.Email = "" →
      Scopes ilike (ContactRepository.FilterContact request) rows =
        rows.filter (fun c => decide (c.UserId = request.UserId))) ∧
    (∀ contacts total, ContactRepository.Search ilike faults rows request =
        .ok (contacts, total) →
      total = ((Scopes ilike (ContactRepository.FilterContact request) rows).length : ℤ) ∧
      contacts = Limit request.Size
        (Offset (wrapInt64 (wrapInt64 (request.Page - 1) * request.Size))
          (Scopes ilike (ContactRepository.FilterContact request) rows))) ∧
    ContactRepository.Search ilike ⟨false, false⟩ rows request =
      .ok (Limit request.Size
          (Offset (wrapInt64 (wrapInt64 (request.Page - 1) * request.Size))
            (Scopes ilike (ContactRepository.FilterContact request) rows)),
        ((Scopes ilike (ContactRepository.FilterContact request) rows).length : ℤ)) := by
  refine ⟨?_, ?_, ?_, ?_, ?_⟩
  · unfold ContactRepository.FilterContact
    by_cases hn : request.Name = "" <;> by_cases hp : request.Phone = "" <;>
      by_cases he : request.Email = "" <;> simp [hn, hp, he]
  · intro c
    unfold Scopes
    rw [List.mem_filter, FilterContact_all]
    by_cases hn : request.Name = "" <;> by_cases hp : request.Phone = "" <;>
      by_cases he : request.Email = "" <;> simp [hn, hp, he, and_assoc]
  · intro hn hp he
    unfold Scopes
    congr 1
    funext c
    rw [FilterContact_all]
    simp [hn, hp, he]
  · intro contacts total h
    unfold ContactRepository.Search at h
    split at h
    · simp at h
    · split at h
      · simp at h
      · simp only [Except.ok.injEq, Prod.mk.injEq] at h
        exact ⟨h.2.symm, h.1.symm⟩
  · simp [ContactRepository.Search]

/-- C18 on contacts of two users and a request of user u1 with name Ann and no phone or
email: the search returns the one contact of u1 named Ann, and counts one. -/
theorem C18_filter_is_conjunction_witness :
    ContactRepository.Search ilikeWhole ⟨false, false⟩ mixedContacts
        ⟨"u1", "Ann", "", "", 1, 10⟩ =
      .ok ([{ ID := "c1", FirstName := "Ann", LastName := "Lee", Email := "ann@example.com",
              Phone := "555", UserId := "u1" }], 1) :=
  (C18_filter_is_conjunction ilikeWhole ⟨false, false⟩ mixedContacts
    ⟨"u1", "Ann", "", "", 1, 10⟩).2.2.2.2.trans (congrArg Except.ok (by decide))

/-! ## Validation and transaction discipline of the address use case -/

/-- C19, as stated, fails for Delete: with a validator that rejects every request,
Delete on the sample store does not return the bad-request error; it deletes the row and
returns nil. -/
theorem C19_counterexample :
    rejectAll.Struct (.delete sampleDelete) ≠ none ∧
      (AddressUseCase.Delete ⟨rejectAll, none⟩ sampleEnv sampleStore sampleDelete).result =
        .ok () ∧
      Action.Delete sampleAddress ∈
        (AddressUseCase.Delete ⟨rejectAll, none⟩ sampleEnv sampleStore sampleDelete).trace ∧
      (AddressUseCase.Delete ⟨rejectAll, none⟩ sampleEnv sampleStore sampleDelete).store ≠
        sampleStore := by
  refine ⟨by decide, by rfl, by decide, by decide⟩

/-- C19, amended: when the validator rejects the request, Create and Update return the
bad-request error without any store write and without a Send call; Get, Delete and List
never consult the validator, so their outcome is the same for every validator. -/
theorem C19_validation_in_create_update (c : AddressUseCase) (v : Validator) (env : Env)
    (db : Store) (cr : CreateAddressRequest) (ur : UpdateAddressRequest)
    (gr : GetAddressRequest) (dr : DeleteAddressRequest) (lr : ListAddressRequest) :
    (c.Validate.Struct (.create cr) ≠ none →
      (c.Create env db cr).result = .error .ErrBadRequest ∧
      (c.Create env db cr).store = db ∧
      ∀ a ∈ (c.Create env db cr).trace, a.isWrite = false ∧ a.isPublish = false) ∧
    (c.Validate.Struct (.update ur) ≠ none →
      (c.Update env db ur).result = .error .ErrBadRequest ∧
      (c.Update env db ur).store = db ∧
      ∀ a ∈ (c.Update env db ur).trace, a.isWrite = false ∧ a.isPublish = false) ∧
    AddressUseCase.Get ⟨v, c.AddressProducer⟩ env db gr = c.Get env db gr ∧
    AddressUseCase.Delete ⟨v, c.AddressProducer⟩ env db dr = c.Delete env db dr ∧
    AddressUseCase.List ⟨v, c.AddressProducer⟩ env db lr = c.List env db lr := by
  refine ⟨?_, ?_, rfl, rfl, rfl⟩
  · intro h
    rw [Create_eq]
    split
    · simp [Action.isWrite, Action.isPublish]
    · contradiction
  · intro h
    rw [Update_eq]
    split
    · simp [Action.isWrite, Action.isPublish]
    · contradiction

/-- C19, amended, on the sample store: Create under a validator that rejects every
request returns the bad-request error and leaves the store as it was. -/
theorem C19_validation_in_create_update_witness :
    (AddressUseCase.Create ⟨rejectAll, some okProducer⟩ sampleEnv sampleStore
        sampleCreate).result = .error .ErrBadRequest ∧
      (AddressUseCase.Create ⟨rejectAll, some okProducer⟩ sampleEnv sampleStore
        sampleCreate).store = sampleStore := by
  have h := (C19_validation_in_create_update ⟨rejectAll, some okProducer⟩ acceptAll sampleEnv
    sampleStore sampleCreate sampleUpdate ⟨"u1", "c1", "a1"⟩ sampleDelete ⟨"u1", "c1"⟩).1
    (by decide)
  exact ⟨h.1, h.2.1⟩

theorem txCalls_sent (sent : List ProducerMessage) (rest : List Action) :
    txCalls (sent.map Action.SendMessage ++ rest) = txCalls rest := by
  induction sent with
  | nil => rfl
  | cons m sent ih => simp [txCalls] at ih ⊢

theorem getLast?_sent (a : Action) (sent : List ProducerMessage) :
    (a :: (sent.map Action.SendMessage ++ [Action.Rollback])).getLast? =
      some Action.Rollback :=
  List.getLast?_concat (a :: sent.map Action.SendMessage)

theorem Create_transaction (c : AddressUseCase) (env : Env) (db : Store)
    (cr : CreateAddressRequest) :
    oneTransaction (c.Create env db cr).trace ∧
      (∀ b, Action.Commit b ∈ (c.Create env db cr).trace →
        c.Validate.Struct (.create cr) = none ∧
        ∃ k, (ContactRepository.FindByIdAndUserId (Begin env.faults db) cr.ContactId
            cr.UserId).1 = .ok k ∧
          (AddressRepository.Create
            (ContactRepository.FindByIdAndUserId (Begin env.faults db) cr.ContactId
              cr.UserId).2 (createdAddress env k cr)).1 = none) := by
  constructor
  · rw [Create_eq]
    repeat' split
    all_goals simp [oneTransaction, txCalls, txCalls_sent, getLast?_sent]
  · rw [Create_eq]
    repeat' split
    all_goals
      simp_all [ContactRepository.FindByIdAndUserId, AddressRepository.Create, Begin,
        Tx.record, createdAddress]
    all_goals
      split
      · rename_i hdup
        obtain ⟨x, hx, hid⟩ := hdup
        exact absurd hid (by simp_all)
      · rfl

theorem Update_transaction (c : AddressUseCase) (env : Env) (db : Store)
    (ur : UpdateAddressRequest) :
    oneTransaction (c.Update env db ur).trace ∧
      (∀ b, Action.Commit b ∈ (c.Update env db ur).trace →
        c.Validate.Struct (.update ur) = none ∧
        ∃ k a, (ContactRepository.FindByIdAndUserId (Begin env.faults db) ur.ContactId
            ur.UserId).1 = .ok k ∧
          (AddressRepository.FindByIdAndContactId
            (ContactRepository.FindByIdAndUserId (Begin env.faults db) ur.ContactId
              ur.UserId).2 ur.ID k.ID).1 = .ok a ∧
          (AddressRepository.Update
            (AddressRepository.FindByIdAndContactId
              (ContactRepository.FindByIdAndUserId (Begin env.faults db) ur.ContactId
                ur.UserId).2 ur.ID k.ID).2 (updatedAddress a ur)).1 = none) := by
  constructor
  · rw [Update_eq]
    repeat' split
    all_goals simp [oneTransaction, txCalls, txCalls_sent, getLast?_sent]
  · rw [Update_eq]
    repeat' split
    all_goals
      simp [*, ContactRepository.FindByIdAndUserId, AddressRepository.FindByIdAndContactId,
        AddressRepository.Update, Begin, Tx.record]

theorem Get_transaction (c : AddressUseCase) (env : Env) (db : Store)
    (gr : GetAddressRequest) :
    oneTransaction (c.Get env db gr).trace ∧
      (∀ b, Action.Commit b ∈ (c.Get env db gr).trace →
        ∃ k a, (ContactRepository.FindByIdAndUserId (Begin env.faults db) gr.ContactId
            gr.UserId).1 = .ok k ∧
          (AddressRepository.FindByIdAndContactId
            (ContactRepository.FindByIdAndUserId (Begin env.faults db) gr.ContactId
              gr.UserId).2 gr.ID gr.ContactId).1 = .ok a) := by
  constructor
  · rw [Get_eq]
    repeat' split
    all_goals simp [oneTransaction, txCalls, txCalls_sent, getLast?_sent]
  · rw [Get_eq]
    repeat' split
    all_goals
      simp_all [ContactRepository.FindByIdAndUserId, AddressRepository.FindByIdAndContactId,
        Begin, Tx.record]

theorem Delete_transaction (c : AddressUseCase) (env : Env) (db : Store)
    (dr : DeleteAddressRequest) :
    oneTransaction (c.Delete env db dr).trace ∧
      (∀ b, Action.Commit b ∈ (c.Delete env db dr).trace →
        ∃ k a, (ContactRepository.FindByIdAndUserId (Begin env.faults db) dr.ContactId
            dr.UserId).1 = .ok k ∧
          (AddressRepository.FindByIdAndContactId
            (ContactRepository.FindByIdAndUserId (Begin env.faults db) dr.ContactId
              dr.UserId).2 dr.ID dr.ContactId).1 = .ok a ∧
          (AddressRepository.Delete
            (AddressRepository.FindByIdAndContactId
              (ContactRepository.FindByIdAndUserId (Begin env.faults db) dr.ContactId
                dr.UserId).2 dr.ID dr.ContactId).2 a).1 = none) := by
  constructor
  · rw [Delete_eq]
    repeat' split
    all_goals simp [oneTransaction, txCalls, txCalls_sent, getLast?_sent]
  · rw [Delete_eq]
    repeat' split
    all_goals
      simp_all [ContactRepository.FindByIdAndUserId, AddressRepository.FindByIdAndContactId,
        AddressRepository.Delete, Begin, Tx.record]

theorem List_transaction (c : AddressUseCase) (env : Env) (db : Store)
    (lr : ListAddressRequest) :
    oneTransaction (c.List env db lr).trace ∧
      (∀ b, Action.Commit b ∈ (c.List env db lr).trace →
        ∃ k l, (ContactRepository.FindByIdAndUserId (Begin env.faults db) lr.ContactId
            lr.UserId).1 = .ok k ∧
          (AddressRepository.FindAllByContactId
            (ContactRepository.FindByIdAndUserId (Begin env.faults db) lr.ContactId
              lr.UserId).2 k.ID).1 = .ok l) := by
  constructor
  · rw [List_eq]
    repeat' split
    all_goals simp [oneTransaction, txCalls, txCalls_sent, getLast?_sent]
  · rw [List_eq]
    repeat' split
    all_goals
      simp_all [ContactRepository.FindByIdAndUserId, AddressRepository.FindAllByContactId,
        Begin, Tx.record]

/-- C20: each of the five address operations opens one transaction, calls Rollback on
it exactly once and as its last call on every exit path, and calls Commit at most once;
Commit is called only when validation (where there is one), the lookups and the write
before it have all succeeded. -/
theorem C20_transaction_discipline (c : AddressUseCase) (env : Env) (db : Store)
    (cr : CreateAddressRequest) (ur : UpdateAddressRequest) (gr : GetAddressRequest)
    (dr : DeleteAddressRequest) (lr : ListAddressRequest) :
    (oneTransaction (c.Create env db cr).trace ∧
      (∀ b, Action.Commit b ∈ (c.Create env db cr).trace →
        c.Validate.Struct (.create cr) = none ∧
        ∃ k, (ContactRepository.FindByIdAndUserId (Begin env.faults db) cr.ContactId
            cr.UserId).1 = .ok k ∧
          (AddressRepository.Create
            (ContactRepository.FindByIdAndUserId (Begin env.faults db) cr.ContactId
              cr.UserId).2 (createdAddress env k cr)).1 = none)) ∧
    (oneTransaction (c.Update env db ur).trace ∧
      (∀ b, Action.Commit b ∈ (c.Update env db ur).trace →
        c.Validate.Struct (.update ur) = none ∧
        ∃ k a, (ContactRepository.FindByIdAndUserId (Begin env.faults db) ur.ContactId
            ur.UserId).1 = .ok k ∧
          (AddressRepository.FindByIdAndContactId
            (ContactRepository.FindByIdAndUserId (Begin env.faults db) ur.ContactId
              ur.UserId).2 ur.ID k.ID).1 = .ok a ∧
          (AddressRepository.Update
            (AddressRepository.FindByIdAndContactId
              (ContactRepository.FindByIdAndUserId (Begin env.faults db) ur.ContactId
                ur.UserId).2 ur.ID k.ID).2 (updatedAddress a ur)).1 = none)) ∧
    (oneTransaction (c.Get env db gr).trace ∧
      (∀ b, Action.Commit b ∈ (c.Get env db gr).trace →
        ∃ k a, (ContactRepository.FindByIdAndUserId (Begin env.faults db) gr.ContactId
            gr.UserId).1 = .ok k ∧
          (AddressRepository.FindByIdAndContactId
            (ContactRepository.FindByIdAndUserId (Begin env.faults db) gr.ContactId
              gr.UserId).2 gr.ID gr.ContactId).1 = .ok a)) ∧
    (oneTransaction (c.Delete env db dr).trace ∧
      (∀ b, Action.Commit b ∈ (c.Delete env db dr).trace →
        ∃ k a, (ContactRepository.FindByIdAndUserId (Begin env.faults db) dr.ContactId
            dr.UserId).1 = .ok k ∧
          (AddressRepository.FindByIdAndContactId
            (ContactRepository.FindByIdAndUserId (Begin env.faults db) dr.ContactId
              dr.UserId).2 dr.ID dr.ContactId).1 = .ok a ∧
          (AddressRepository.Delete
            (AddressRepository.FindByIdAndContactId
              (ContactRepository.FindByIdAndUserId (Begin env.faults db) dr.ContactId
                dr.UserId).2 dr.ID dr.ContactId).2 a).1 = none)) ∧
    (oneTransaction (c.List env db lr).trace ∧
      (∀ b, Action.Commit b ∈ (c.List env db lr).trace →
        ∃ k l, (ContactRepository.FindByIdAndUserId (Begin env.faults db) lr.ContactId
            lr.UserId).1 = .ok k ∧
          (AddressRepository.FindAllByContactId
            (ContactRepository.FindByIdAndUserId (Begin env.faults db) lr.ContactId
              lr.UserId).2 k.ID).1 = .ok l)) := by
  exact ⟨Create_transaction c env db cr, Update_transaction c env db ur,
    Get_transaction c env db gr, Delete_transaction c env db dr,
    List_transaction c env db lr⟩

/-- C20 on the sample store: the committed Create makes the transaction calls begin,
commit, rollback, in that order. -/
theorem C20_transaction_discipline_witness :
    txCalls (AddressUseCase.Create ⟨acceptAll, some okProducer⟩ sampleEnv sampleStore
        sampleCreate).trace = [.Begin, .Commit true, .Rollback] ∧
      acceptAll.Struct (.create sampleCreate) = none :=
  ⟨by decide,
    ((C20_transaction_discipline ⟨acceptAll, some okProducer⟩ sampleEnv sampleStore
      sampleCreate sampleUpdate ⟨"u1", "c1", "a1"⟩ sampleDelete ⟨"u1", "c1"⟩).1.2 true
      (by decide)).1⟩

/-! ## Frame of Update -/

theorem Update_ok (c : AddressUseCase) (env : Env) (db : Store) (ur : UpdateAddressRequest)
    (r : AddressResponse) (hr : (c.Update env db ur).result = .ok r) :
    ∃ contact old,
      db.contacts.find?
        (fun k => decide (k.ID = ur.ContactId) && decide (k.UserId = ur.UserId)) =
          some contact ∧
      db.addresses.find?
        (fun a => decide (a.ID = ur.ID) && decide (a.ContactId = contact.ID)) = some old ∧
      r = converter.AddressToResponse (updatedAddress old ur) ∧
      (c.Update env db ur).store = db.save (updatedAddress old ur) := by
  revert hr
  rw [Update_eq]
  repeat' split
  all_goals simp_all

theorem save_unique_key (l : List Address) (old new : Address)
    (hpk : (l.map Address.ID).Nodup) (hold : old ∈ l) (hid : new.ID = old.ID) :
    l.map (fun a => if a.ID = new.ID then new else a) =
      l.map (fun a => if a = old then new else a) := by
  apply List.map_congr_left
  intro a ha
  by_cases h : a = old
  · simp [h, hid]
  · have hne : a.ID ≠ old.ID := fun hEq => h (List.inj_on_of_nodup_map hpk ha hold hEq)
    simp [h, hid, hne]

/-- C21: on a store whose address ids are unique, a successful Update rewrites exactly
the address row found for (request.ID, id of the contact owned by the user): its five
fields Street, City, Province, PostalCode and Country take the request's values, its ID
and ContactId stay as they were, every other address row and every contact row is
unchanged, and the address ids stay unique. -/
theorem C21_update_changes_five_fields (c : AddressUseCase) (env : Env) (db : Store)
    (ur : UpdateAddressRequest) (r : AddressResponse)
    (hpk : (db.addresses.map Address.ID).Nodup)
    (hr : (c.Update env db ur).result = .ok r) :
    ∃ contact old new,
      contact ∈ db.contacts ∧ contact.ID = ur.ContactId ∧ contact.UserId = ur.UserId ∧
      old ∈ db.addresses ∧ old.ID = ur.ID ∧ old.ContactId = contact.ID ∧
      new.ID = old.ID ∧ new.ContactId = old.ContactId ∧
      new.Street = ur.Street ∧ new.City = ur.City ∧ new.Province = ur.Province ∧
      new.PostalCode = ur.PostalCode ∧ new.Country = ur.Country ∧
      (c.Update env db ur).store.contacts = db.contacts ∧
      (c.Update env db ur).store.addresses =
        db.addresses.map (fun a => if a = old then new else a) ∧
      (∀ a ∈ db.addresses, a ≠ old → a ∈ (c.Update env db ur).store.addresses) ∧
      ((c.Update env db ur).store.addresses.map Address.ID).Nodup := by
  obtain ⟨contact, old, hk, ha, _, hs⟩ := Update_ok c env db ur r hr
  have hk1 := List.find?_some hk
  have hk2 := List.mem_of_find?_eq_some hk
  have ha1 := List.find?_some ha
  have ha2 := List.mem_of_find?_eq_some ha
  simp only [Bool.and_eq_true, decide_eq_true_eq] at hk1 ha1
  have hmap : (c.Update env db ur).store.addresses =
      db.addresses.map (fun a => if a = old then updatedAddress old ur else a) := by
    rw [hs]
    exact save_unique_key db.addresses old (updatedAddress old ur) hpk ha2 rfl
  refine ⟨contact, old, updatedAddress old ur, hk2, hk1.1, hk1.2, ha2, ha1.1, ha1.2,
    rfl, rfl, rfl, rfl, rfl, rfl, rfl, ?_, hmap, ?_, ?_⟩
  · rw [hs]
    rfl
  · intro a ha hne
    rw [hmap, List.mem_map]
    exact ⟨a, ha, by simp [hne]⟩
  · rw [hmap, List.map_map]
    have : (Address.ID ∘ fun a => if a = old then updatedAddress old ur else a) =
        Address.ID := by
      funext a
      by_cases h : a = old
      · simp [h, updatedAddress]
      · simp [h]
    rw [this]
    exact hpk

/-- C21 on the sample store: the update of address a1 sets its street to Main St, keeps
its id and contact id, and leaves the contact rows as they were. -/
theorem C21_update_changes_five_fields_witness :
    ∃ contact old new,
      contact ∈ sampleStore.contacts ∧ contact.ID = "c1" ∧ contact.UserId = "u1" ∧
      old ∈ sampleStore.addresses ∧ old.ID = "a1" ∧ old.ContactId = contact.ID ∧
      new.ID = old.ID ∧ new.ContactId = old.ContactId ∧
      new.Street = "Main St" ∧ new.City = "Jakarta" ∧ new.Province = "DKI" ∧
      new.PostalCode = "10110" ∧ new.Country = "ID" ∧
      (AddressUseCase.Update ⟨acceptAll, some okProducer⟩ sampleEnv sampleStore
        sampleUpdate).store.contacts = sampleStore.contacts ∧
      (AddressUseCase.Update ⟨acceptAll, some okProducer⟩ sampleEnv sampleStore
        sampleUpdate).store.addresses =
          sampleStore.addresses.map (fun a => if a = old then new else a) ∧
      (∀ a ∈ sampleStore.addresses, a ≠ old →
        a ∈ (AddressUseCase.Update ⟨acceptAll, some okProducer⟩ sampleEnv sampleStore
          sampleUpdate).store.addresses) ∧
      ((AddressUseCase.Update ⟨acceptAll, some okProducer⟩ sampleEnv sampleStore
        sampleUpdate).store.addresses.map Address.ID).Nodup :=
  C21_update_changes_five_fields ⟨acceptAll, some okProducer⟩ sampleEnv sampleStore
    sampleUpdate ⟨"a1", "Main St", "Jakarta", "DKI", "10110", "ID"⟩ (by decide) rfl

end GoCleanTemplate
